import Mathlib

/-! Verification development for the ai-hedge-fund-research-stack repository:
a shallow embedding of the decision-workflow state machine
(app/orchestration/state.py, agents.py, graph.py, tools.py) and of the
counterfactual robustness validator (app/validation/metrics.py,
app/validation/counterfactual.py), with theorems settling the spec's claims.
Python floats are embedded as rationals; dict-shaped reports whose key sets
are statically known become structures with one `Option` field per key
(`none` = key absent); external effects (the pause flag file, the approval
flag file, the market-data tools, numpy's seeded generator) are threaded in
explicitly through an `Env` record. -/

namespace HedgeFund

/-! ### app/validation/metrics.py -/

/-- numpy.sign on a rational: 1 for positive, -1 for negative, 0 for zero. -/
def sgn (x : ℚ) : ℤ :=
  if 0 < x then 1 else if x < 0 then -1 else 0

/-- The per-scenario body of `prediction_consistency`'s loop: a scenario whose
vector length differs from the baseline contributes 0.0, otherwise the
fraction of positions whose sign matches the baseline's sign
(`np.mean(cf_sign == baseline_sign)`). -/
def scenarioMatchFraction (baseline cf : List ℚ) : ℚ :=
  if cf.length ≠ baseline.length then 0
  else ((cf.zip baseline).countP (fun p => decide (sgn p.1 = sgn p.2)) : ℚ) / (baseline.length : ℚ)

/-- metrics.prediction_consistency: 0.0 on an empty baseline or empty scenario
list, otherwise the arithmetic mean (`np.mean(matches)`) of the per-scenario
match fractions. -/
def prediction_consistency (baseline : List ℚ) (counterfactual_predictions : List (List ℚ)) : ℚ :=
  if baseline.length = 0 ∨ counterfactual_predictions.length = 0 then 0
  else ((counterfactual_predictions.map (scenarioMatchFraction baseline)).sum
        / (counterfactual_predictions.length : ℚ))

/-- The dict shape shared by metrics.build_consistency_report (which sets only
the prediction_consistency key) and FactFinValidator.consistency_check (which
also sets flagged and, on its empty-input paths, reason). `none` = key absent. -/
structure ConsistencyReport where
  prediction_consistency : ℚ
  flagged : Option Bool := none
  reason : Option String := none
  threshold : Option ℚ := none
deriving DecidableEq, Repr

/-- metrics.build_consistency_report: a dict holding only the
prediction_consistency key. -/
def build_consistency_report (baseline : List ℚ)
    (counterfactual_predictions : List (List ℚ)) : ConsistencyReport :=
  { prediction_consistency := prediction_consistency baseline counterfactual_predictions }

/-! ### app/validation/counterfactual.py -/

/-- counterfactual.CounterfactualConfig with its source defaults. -/
structure CounterfactualConfig where
  scenarios : ℕ := 50
  price_noise_std : ℚ := 1/100
  earnings_shift_days : ℤ := 3
deriving DecidableEq, Repr

/-- The dataset dict read by generate_counterfactuals; a missing key reads as
the empty list (`dataset.get(..., [])`), so the empty dict is the record with
three empty lists. -/
structure Dataset where
  prices : List ℚ := []
  earnings_dates : List ℤ := []
  sentiment : List ℚ := []
deriving DecidableEq, Repr

/-- One counterfactual scenario dict. -/
structure Scenario where
  prices : List ℚ
  earnings_dates : List ℤ
  sentiment : List ℚ
  scenario_id : ℕ
deriving DecidableEq, Repr

/-- Semantics of numpy's seeded generator (`np.random.default_rng(seed)`): a
deterministic stream of draws, indexed by the seed and a consumption counter.
`normal seed k std` is the draw at counter `k` from N(0, std); a size-n
`rng.normal` call consumes counters k..k+n-1. `intdraw seed k lo hi` is the
integer draw at counter `k` from `rng.integers(lo, hi)` (hi exclusive),
consuming one counter. The concrete bit stream of PCG64 is left abstract; only
that draws are pure functions of (seed, counter) is used. -/
structure RngModel where
  normal : ℕ → ℕ → ℚ → ℚ
  intdraw : ℕ → ℕ → ℤ → ℤ → ℤ

/-- The body of one iteration of generate_counterfactuals' loop, starting at
rng counter `ctr`: Gaussian noise for every price sample (counters
ctr..ctr+n-1, n = number of prices), then one integer earnings shift drawn
from [-earnings_shift_days, earnings_shift_days] (counter ctr+n) — noise
first, shift second — and sentiment sign-inverted, with scenario_id `sid`. -/
def scenario_at (g : RngModel) (seed : ℕ) (dataset : Dataset)
    (config : CounterfactualConfig) (sid ctr : ℕ) : Scenario :=
  let n := dataset.prices.length
  { prices := (dataset.prices.zip
      ((List.range n).map (fun j => g.normal seed (ctr + j) config.price_noise_std))).map
        (fun p => p.1 + p.2),
    earnings_dates := dataset.earnings_dates.map
      (fun e => e + g.intdraw seed (ctr + n) (-config.earnings_shift_days)
        (config.earnings_shift_days + 1)),
    sentiment := dataset.sentiment.map (fun x => -x),
    scenario_id := sid }

/-- The `for i in range(config.scenarios)` loop of generate_counterfactuals,
threading the rng consumption counter: each iteration consumes
`prices.length + 1` draws (noise then shift). -/
def genLoop (g : RngModel) (seed : ℕ) (dataset : Dataset) (config : CounterfactualConfig) :
    ℕ → ℕ → ℕ → List Scenario
  | 0, _, _ => []
  | k + 1, i, ctr =>
      scenario_at g seed dataset config i ctr
        :: genLoop g seed dataset config k (i + 1) (ctr + (dataset.prices.length + 1))

/-- counterfactual.generate_counterfactuals: seeds a fresh generator from
`seed` (counter 0) and runs the scenario loop. Source defaults:
config = CounterfactualConfig(), seed = 7. -/
def generate_counterfactuals (g : RngModel) (dataset : Dataset)
    (config : CounterfactualConfig := {}) (seed : ℕ := 7) : List Scenario :=
  genLoop g seed dataset config config.scenarios 0 0

/-! ### app/orchestration/tools.py (the pure compliance checks; the
market-data tools are external collaborators, modelled at their interface
boundary through `Env` below) -/

/-- A trade record (a dict); the engine only ever passes the empty list. -/
abbrev Trade := List (String × String)

/-- Result dict of tools.check_restricted_symbols; the restricted set in the
source is empty. -/
structure SymbolReport where
  checked_symbols : List String
  restricted : List String
  violations : List String
  status : String
deriving DecidableEq, Repr

/-- tools.check_restricted_symbols. -/
def check_restricted_symbols (symbols : List String) : SymbolReport :=
  let restricted : List String := []
  let violations := symbols.filter (fun s => decide (s ∈ restricted))
  { checked_symbols := symbols, restricted := restricted, violations := violations,
    status := if violations = [] then "pass" else "fail" }

/-- Result dict of tools.check_wash_sale_patterns. -/
structure WashReport where
  checked_trades : List Trade
  status : String
  note : String
deriving DecidableEq, Repr

/-- tools.check_wash_sale_patterns: any non-empty trade list fails. -/
def check_wash_sale_patterns (trades : List Trade) : WashReport :=
  { checked_trades := trades,
    status := if trades = [] then "pass" else "fail",
    note := "Research-only system should not include trade data." }

/-! ### Collaborator tool outputs (tools.fetch_market_data, clean_data,
run_analysis). These reach outside the core (yfinance, pandas), so their
values are abstracted at the interface boundary of section 6 of the spec: the
workflow engine stores them but never inspects them. -/

/-- A buy/sell signal row produced by tools.run_analysis. -/
structure Signal where
  time : String
  price : ℚ
  action : String
deriving DecidableEq, Repr

/-- The snapshot dict returned by tools.fetch_market_data (rows abstracted;
`stop` embeds the python key "end", a Lean keyword). -/
structure MarketData where
  symbol : String := ""
  start : String := ""
  stop : String := ""
  interval : String := ""
  ohlcv : List (List ℚ) := []
deriving DecidableEq, Repr

/-- The "analysis" value of tools.run_analysis' result: the string "No data"
on an empty frame, otherwise the summary dict. -/
inductive AnalysisPayload
  | noData
  | summary (rsi_last : ℚ) (signal_count : ℕ)
deriving DecidableEq, Repr

/-- The result dict of tools.run_analysis: on an empty frame only the
analysis/inputs keys are present (signals and risk metrics absent). -/
structure RiskMetrics where
  max_drawdown : Option ℚ := none
  exposure : Option ℚ := none
deriving DecidableEq, Repr

structure AnalysisResult where
  payload : Option AnalysisPayload := none
  signals : Option (List Signal) := none
  risk_metrics : Option RiskMetrics := none
deriving DecidableEq, Repr

/-- The merged `market_data | {"signals": ...}` value stored by the executor. -/
structure MarketBundle where
  base : MarketData
  signals : List Signal
deriving DecidableEq, Repr

/-! ### app/orchestration/agents.py -/

/-- Prefix test on character lists (for the critic's substring scan). -/
def listPrefixOf : List Char → List Char → Bool
  | [], _ => true
  | _ :: _, [] => false
  | a :: as, b :: bs => a == b && listPrefixOf as bs

/-- Substring test on character lists: the python `in` operator on str. -/
def listSubOf (p : List Char) : List Char → Bool
  | [] => p.isEmpty
  | a :: t => listPrefixOf p (a :: t) || listSubOf p t

/-- Python str.lower (per character, as the critic applies it to ASCII code). -/
def lowerChars (s : String) : List Char := s.toList.map Char.toLower

/-- The executor's dict of artifacts. `none` = key absent: the executor never
writes a "predictions" key, so that field stays `none` in everything it
returns. -/
structure Artifacts where
  plan : Option (List String) := none
  code_snippet : Option String := none
  market_data_request : Option (String × String × String) := none
  market_data : Option MarketBundle := none
  analysis : Option AnalysisPayload := none
  risk_metrics : Option RiskMetrics := none
  predictions : Option (List ℚ) := none
deriving DecidableEq, Repr

/-- PlannerAgent.plan: deterministic decomposition, no tool access. -/
def PlannerAgent.plan (hypothesis : String) : List String :=
  ["Restate hypothesis: " ++ hypothesis,
   "Identify required datasets and constraints",
   "Outline feature engineering steps",
   "Define evaluation protocol and bias checks"]

/-- The fixed research-code text ExecutorAgent.execute generates (and does not
run), line for line as in the source. -/
def executor_code_snippet : String :=
  String.intercalate "\n"
    ["import pandas as pd",
     "import yfinance as yf",
     "",
     "def run_research(symbol: str, start: str, end: str) -> pd.DataFrame:",
     "    data = yf.download(symbol, start=start, end=end)",
     "    data['rsi'] = compute_rsi(data['Close'])",
     "    # TODO: integrate news sentiment safely via approved source",
     "    return data",
     "",
     "def compute_rsi(series: pd.Series, period: int = 14) -> pd.Series:",
     "    delta = series.diff()",
     "    gain = delta.clip(lower=0)",
     "    loss = -delta.clip(upper=0)",
     "    avg_gain = gain.rolling(period).mean()",
     "    avg_loss = loss.rolling(period).mean()",
     "    rs = avg_gain / avg_loss",
     "    return 100 - (100 / (1 + rs))"]

/-- The run's external world, read by the engine and the executor's tools:
the pause flag file's presence (os.path.exists(PAUSE_FLAG)), the approval
flag file (`none` = absent, otherwise its contents already stripped and
lowercased as the approval node reads them), the market-data collaborators'
outputs (assumed to succeed; a tool-level failure propagates as an exception
before the critic is reached and is outside the state machine), and the
numpy generator semantics used by generate_counterfactuals. -/
structure Env where
  pauseFlag : Bool
  approvalValue : Option String
  fetched : MarketData
  analysisResult : AnalysisResult
  rng : RngModel

/-- ExecutorAgent.execute: assembles the artifact dict. The three tool calls
(fetch_market_data, clean_data, run_analysis) are all on the executor's
allow-list, so validate_tool_access passes; their outputs come from `env`.
Keys set: plan, code_snippet, market_data_request, market_data (fetch result
merged with the analysis' signals, default []), analysis, risk_metrics
(default {} when the analysis has none). No "predictions" key is ever set. -/
def ExecutorAgent.execute (env : Env) (plan : List String) : Artifacts :=
  { plan := some plan,
    code_snippet := some executor_code_snippet,
    market_data_request := some ("AAPL", "2022-01-01", "2022-12-31"),
    market_data := some { base := env.fetched, signals := env.analysisResult.signals.getD [] },
    analysis := env.analysisResult.payload,
    risk_metrics := some (env.analysisResult.risk_metrics.getD {}),
    predictions := none }

/-- The critic's report dict (CriticAgent.evaluate plus the counterfactual
entry critic_node adds). -/
structure CriticReport where
  look_ahead_bias : Option String := none
  overfitting : Option String := none
  leakage : Option String := none
  reproducibility : Option String := none
  veto : Option Bool := none
  confidence : Option ℚ := none
  critique_score : Option ℚ := none
  notes : Option String := none
  counterfactual : Option ConsistencyReport := none
deriving DecidableEq, Repr

/-- CriticAgent.evaluate: look-ahead heuristic on the generated code text
("shift(-" in the raw text, or "future" in the lowercased text), score 0.9 on
low risk else 0.4, veto iff score < 0.8. The json.loads(json.dumps(...))
round-trip in the source is the identity on this report. -/
def CriticAgent.evaluate (artifacts : Artifacts) : CriticReport :=
  let code_snippet := artifacts.code_snippet.getD ""
  let look_ahead_risk :=
    if listSubOf "shift(-".toList code_snippet.toList
        || listSubOf "future".toList (lowerChars code_snippet) then "high" else "low"
  let critique_score : ℚ := if look_ahead_risk = "low" then 9/10 else 2/5
  let veto := decide (critique_score < 8/10)
  { look_ahead_bias := some look_ahead_risk,
    overfitting := some "unknown",
    leakage := some "unknown",
    reproducibility := some "unknown",
    veto := some veto,
    confidence := some critique_score,
    critique_score := some critique_score,
    notes := some "Heuristic review completed." }

/-- The compliance report dict. -/
structure ComplianceReport where
  symbol_report : Option SymbolReport := none
  wash_sale_report : Option WashReport := none
  status : Option String := none
deriving DecidableEq, Repr

/-- ComplianceOfficerAgent.review (both tools are on its allow-list). -/
def ComplianceOfficerAgent.review (symbols : List String) (trades : List Trade) :
    ComplianceReport :=
  let symbol_report := check_restricted_symbols symbols
  let wash_report := check_wash_sale_patterns trades
  { symbol_report := some symbol_report,
    wash_sale_report := some wash_report,
    status := some (if symbol_report.status = "pass" ∧ wash_report.status = "pass"
                    then "pass" else "fail") }

/-- The risk report dict (limits reuse the RiskMetrics shape). -/
structure RiskReport where
  status : Option String := none
  violations : Option (List String) := none
  metrics : Option RiskMetrics := none
  limits : Option RiskMetrics := none
deriving DecidableEq, Repr

/-- RiskManagerAgent.evaluate: reads max_drawdown and exposure from the
artifacts' risk metrics, substituting 0.0 for a missing entry or metric,
checks them against the fixed limits 0.2 and 1.0 (strict breach), appends
"max_drawdown" then "exposure" to the violations, and passes iff there is no
violation. -/
def RiskManagerAgent.evaluate (artifacts : Artifacts) : RiskReport :=
  let risk_metrics := artifacts.risk_metrics.getD {}
  let max_drawdown := risk_metrics.max_drawdown.getD 0
  let exposure := risk_metrics.exposure.getD 0
  let violations :=
    (if max_drawdown > 1/5 then ["max_drawdown"] else [])
      ++ (if exposure > 1 then ["exposure"] else [])
  { status := some (if violations = [] then "pass" else "fail"),
    violations := some violations,
    metrics := some { max_drawdown := some max_drawdown, exposure := some exposure },
    limits := some { max_drawdown := some (1/5), exposure := some 1 } }

/-! ### app/orchestration/state.py -/

/-- One transcript entry of GraphState.messages. -/
structure Message where
  role : String
  content : String
deriving DecidableEq, Repr

/-- state.GraphState with its field defaults. -/
structure GraphState where
  hypothesis : String
  messages : List Message := []
  market_data : Option MarketBundle := none
  code_snippet : String := ""
  critique_score : ℚ := 0
  human_approval : Bool := false
  awaiting_approval : Bool := false
  plan : List String := []
  executor_artifacts : Artifacts := {}
  critic_report : CriticReport := {}
  compliance_report : ComplianceReport := {}
  risk_report : RiskReport := {}
  retry_count : ℕ := 0
  max_retries : ℕ := 2
  pause_requested : Bool := false
  confidence : ℚ := 0
  logs : List String := []
  failure_reason : Option String := none
  active_node : String := ""
deriving DecidableEq, Repr

/-- GraphState.log. -/
def GraphState.addLog (s : GraphState) (message : String) : GraphState :=
  { s with logs := s.logs ++ [message] }

/-! ### app/orchestration/graph.py -/

/-- The module-level configuration graph.py reads from the environment, with
the source defaults MAX_RETRIES = 2 and PC_THRESHOLD = 0.7. -/
structure EngineConfig where
  max_retries : ℕ := 2
  pc_threshold : ℚ := 7/10
deriving DecidableEq, Repr

/-- Python truthiness of an Optional[str]: `if state.failure_reason:` is taken
when the field is neither None nor the empty string. -/
def truthyStr : Option String → Bool
  | none => false
  | some s => decide (s ≠ "")

/-- graph._ensure_not_paused: overwrite failure_reason with the pause marker
when the in-state pause request or the external pause flag is set. -/
def ensure_not_paused (env : Env) (s : GraphState) : GraphState :=
  if s.pause_requested || env.pauseFlag then
    { s with failure_reason := some "Paused by operator." }
  else s

/-- The shared prologue of every node: _ensure_not_paused, then return
unchanged when failure_reason is truthy, else run the node's body. -/
def guarded (env : Env) (body : GraphState → GraphState) (s : GraphState) : GraphState :=
  let s := ensure_not_paused env s
  if truthyStr s.failure_reason then s else body s

def planner_body (s : GraphState) : GraphState :=
  let s := { s with active_node := "planner" }
  let s := { s with plan := PlannerAgent.plan s.hypothesis }
  let s := { s with messages := s.messages ++ [Message.mk "planner" "Plan created."] }
  s.addLog "Planner produced research plan"

/-- graph.planner_node. -/
def planner_node (env : Env) : GraphState → GraphState :=
  guarded env planner_body

def executor_body (env : Env) (s : GraphState) : GraphState :=
  let s := { s with active_node := "executor" }
  let arts := ExecutorAgent.execute env s.plan
  let s := { s with executor_artifacts := arts }
  let s := { s with code_snippet := arts.code_snippet.getD "" }
  let s := { s with market_data := arts.market_data }
  let s := { s with messages := s.messages ++ [Message.mk "executor" "Code generated (not executed)."] }
  let s := s.addLog "Executor produced analysis artifacts"
  let s := { s with compliance_report := ComplianceOfficerAgent.review [] [] }
  s.addLog "Compliance review completed"

/-- graph.executor_node (the compliance review it runs is informational). -/
def executor_node (env : Env) : GraphState → GraphState :=
  guarded env (executor_body env)

/-- The critic's assessment: counterfactual validation on the executor's
baseline predictions (absent key reads as []) against stubbed-empty
counterfactual prediction lists (one per generated scenario), the code
review, and the PC-threshold veto override — everything in critic_node up to
the retry decision. -/
def critic_assess (cfg : EngineConfig) (env : Env) (s : GraphState) : GraphState :=
  let s := { s with active_node := "critic" }
  let baseline := s.executor_artifacts.predictions.getD []
  let counterfactuals := generate_counterfactuals env.rng {}
  let cf_predictions := counterfactuals.map (fun _ => ([] : List ℚ))
  let consistency_report := build_consistency_report baseline cf_predictions
  let report := CriticAgent.evaluate s.executor_artifacts
  let report := { report with counterfactual := some consistency_report }
  let s := { s with critic_report := report }
  let s := { s with confidence := report.confidence.getD 0 }
  let s := { s with critique_score := report.critique_score.getD s.confidence }
  let s := { s with messages := s.messages ++ [Message.mk "critic" "Critic review complete."] }
  if consistency_report.prediction_consistency < cfg.pc_threshold then
    { s with critic_report :=
        { s.critic_report with
          veto := some true,
          notes := some (s.critic_report.notes.getD ""
            ++ " PC below threshold " ++ toString cfg.pc_threshold ++ ".") } }
  else s

/-- The retry decision at the end of critic_node: on a veto, either increment
retry_count (while it is below max_retries) or set the terminal failure. -/
def critic_decide (s : GraphState) : GraphState :=
  if s.critic_report.veto.getD false then
    if s.retry_count < s.max_retries then
      ({ s with retry_count := s.retry_count + 1 }).addLog "Critic vetoed; retrying executor"
    else
      { s with failure_reason := some "Max retries exceeded after critic veto." }
  else s

def critic_body (cfg : EngineConfig) (env : Env) (s : GraphState) : GraphState :=
  (critic_decide (critic_assess cfg env s)).addLog "Critic issued report"

/-- graph.critic_node. -/
def critic_node (cfg : EngineConfig) (env : Env) : GraphState → GraphState :=
  guarded env (critic_body cfg env)

def risk_body (s : GraphState) : GraphState :=
  let s := { s with active_node := "risk_manager" }
  let s := { s with risk_report := RiskManagerAgent.evaluate s.executor_artifacts }
  let s := { s with messages := s.messages ++ [Message.mk "risk_manager" "Risk checks complete."] }
  let s := s.addLog "Risk manager issued report"
  if s.risk_report.status ≠ some "pass" then
    { s with failure_reason := some "Risk manager vetoed based on limits." }
  else s

/-- graph.risk_manager_node. -/
def risk_manager_node (env : Env) : GraphState → GraphState :=
  guarded env risk_body

def approval_body (env : Env) (s : GraphState) : GraphState :=
  let s := { s with active_node := "human_approval" }
  let s := { s with awaiting_approval := true }
  let approval_value := env.approvalValue
  if approval_value = some "approve" then
    let s := { s with human_approval := true, awaiting_approval := false }
    let s := { s with messages := s.messages ++ [Message.mk "human" "Approved."] }
    s.addLog "Human approval granted"
  else if approval_value = some "reject" then
    let s := { s with human_approval := false, awaiting_approval := false }
    let s := { s with failure_reason := some "Rejected by human approver." }
    let s := { s with messages := s.messages ++ [Message.mk "human" "Rejected."] }
    s.addLog "Human approval rejected"
  else
    let s := { s with pause_requested := true }
    s.addLog "Awaiting human approval"

/-- graph.human_approval_node. -/
def human_approval_node (env : Env) : GraphState → GraphState :=
  guarded env (approval_body env)

/-- The Literal["executor", "risk", "fail", "paused"] result of
route_after_critic. -/
inductive CriticRoute
  | executor
  | risk
  | fail
  | paused
deriving DecidableEq, Repr

/-- graph.route_after_critic (note the source's `get("veto", True)`: a missing
veto key routes back to the executor). -/
def route_after_critic (s : GraphState) : CriticRoute :=
  if s.pause_requested then .paused
  else if truthyStr s.failure_reason then .fail
  else if s.critic_report.veto.getD true then .executor
  else .risk

/-- The Literal["approval", "fail", "paused"] result of route_after_risk. -/
inductive RiskRoute
  | approval
  | fail
  | paused
deriving DecidableEq, Repr

/-- graph.route_after_risk. -/
def route_after_risk (s : GraphState) : RiskRoute :=
  if s.pause_requested then .paused
  else if truthyStr s.failure_reason then .fail
  else .approval

/-- The Literal["done", "fail", "paused"] result of route_after_human. -/
inductive HumanRoute
  | done
  | fail
  | paused
deriving DecidableEq, Repr

/-- graph.route_after_human. -/
def route_after_human (s : GraphState) : HumanRoute :=
  if s.pause_requested then .paused
  else if truthyStr s.failure_reason then .fail
  else if s.human_approval then .done
  else .paused

/-- The five graph nodes (build_graph's add_node calls). -/
inductive Node
  | planner
  | executor
  | critic
  | risk
  | approval
deriving DecidableEq, Repr

/-- The three terminal outcomes: which END edge of the compiled graph the run
took (done / fail / paused labels of the conditional edges). -/
inductive Terminal
  | done
  | failed
  | paused
deriving DecidableEq, Repr

/-- A finished run: the final state, which terminal edge ended it, and the
sequence of nodes that executed (each node's prologue included). -/
structure RunResult where
  state : GraphState
  terminal : Terminal
  trace : List Node
deriving DecidableEq, Repr

/-- Record the executed node at the head of a pending run's trace. -/
def withTrace (n : Node) : Option RunResult → Option RunResult
  | none => none
  | some r => some { r with trace := n :: r.trace }

/-- The compiled graph's invoke loop: execute the current node, then follow
build_graph's edges (planner → executor → critic unconditionally, the three
routing functions afterwards) until an END edge. Fuel-indexed; `none` means
the fuel ran out before a terminal edge (the theorems below supply enough
fuel for every path the bounded retry loop allows). -/
def runFrom (cfg : EngineConfig) (env : Env) : ℕ → Node → GraphState → Option RunResult
  | 0, _, _ => none
  | fuel + 1, .planner, s =>
      withTrace .planner (runFrom cfg env fuel .executor (planner_node env s))
  | fuel + 1, .executor, s =>
      withTrace .executor (runFrom cfg env fuel .critic (executor_node env s))
  | fuel + 1, .critic, s =>
      let s := critic_node cfg env s
      match route_after_critic s with
      | .executor => withTrace .critic (runFrom cfg env fuel .executor s)
      | .risk => withTrace .critic (runFrom cfg env fuel .risk s)
      | .fail => some { state := s, terminal := .failed, trace := [.critic] }
      | .paused => some { state := s, terminal := .paused, trace := [.critic] }
  | fuel + 1, .risk, s =>
      let s := risk_manager_node env s
      match route_after_risk s with
      | .approval => withTrace .risk (runFrom cfg env fuel .approval s)
      | .fail => some { state := s, terminal := .failed, trace := [.risk] }
      | .paused => some { state := s, terminal := .paused, trace := [.risk] }
  | _ + 1, .approval, s =>
      let s := human_approval_node env s
      match route_after_human s with
      | .done => some { state := s, terminal := .done, trace := [.approval] }
      | .fail => some { state := s, terminal := .failed, trace := [.approval] }
      | .paused => some { state := s, terminal := .paused, trace := [.approval] }

/-- Bookkeeping for the executor-entry bound: starting at the planner or the
executor node the path may enter the executor once beyond the retries it
spends; starting elsewhere every executor entry is paid for by a retry
increment. -/
def entryBonus : Node → ℕ
  | .planner => 1
  | .executor => 1
  | _ => 0

/-- The state run_graph constructs before invoking the graph: hypothesis and
MAX_RETRIES, then the user message appended. -/
def initial_state (cfg : EngineConfig) (hypothesis : String) : GraphState :=
  { hypothesis := hypothesis, max_retries := cfg.max_retries,
    messages := [Message.mk "user" hypothesis] }

/-- graph.run_graph: invoke the graph from the planner on the initial state;
re-raise a truthy failure_reason as an error (RuntimeError), otherwise return
the final state. `none` = out of fuel. The audit write (DecisionLogger) is an
external sink and does not affect the state. -/
def run_graph (cfg : EngineConfig) (env : Env) (fuel : ℕ) (hypothesis : String) :
    Option (Except String GraphState) :=
  match runFrom cfg env fuel .planner (initial_state cfg hypothesis) with
  | none => none
  | some r =>
      if truthyStr r.state.failure_reason then
        some (.error (r.state.failure_reason.getD ""))
      else some (.ok r.state)

/-! ### Concrete inputs used by witnesses and counterexamples -/

/-- A concrete generator interpretation: every draw is 0. -/
def zeroRng : RngModel :=
  { normal := fun _ _ _ => 0, intdraw := fun _ _ _ _ => 0 }

/-- A concrete environment: no pause flag, no approval decision, trivial
collaborator outputs. -/
def quietEnv : Env :=
  { pauseFlag := false, approvalValue := none, fetched := {},
    analysisResult := {}, rng := zeroRng }

/-- The same environment with the operator's pause flag present. -/
def pausedEnv : Env := { quietEnv with pauseFlag := true }

/-- Artifacts whose risk metrics carry max_drawdown = 0.25 (the spec's risk
scenario). -/
def drawdownArtifacts : Artifacts :=
  { risk_metrics := some { max_drawdown := some (1/4) } }

/-- Artifacts whose risk metrics lack the max_drawdown key but carry an
exposure of 2.0 (beyond the 1.0 limit). -/
def exposureOnlyArtifacts : Artifacts :=
  { risk_metrics := some { exposure := some 2 } }

/-- A state whose failure_reason is non-null (in python: not None) yet falsy:
the empty string. -/
def emptyReasonState : GraphState :=
  { hypothesis := "H", failure_reason := some "" }

/-- A state whose failure_reason is one of the engine's own (non-empty)
messages. -/
def failedState : GraphState :=
  { hypothesis := "H", failure_reason := some "Risk manager vetoed based on limits." }

/-- A healthy state whose executor artifacts breach the drawdown limit. -/
def riskFailState : GraphState :=
  { hypothesis := "H", executor_artifacts := drawdownArtifacts }

/-- The failure_reason is not the empty string (None and every message the
engine assigns qualify): on such states python's truthiness test agrees with
the is-none test, which is what makes the entry point's raise-iff-non-null
contract hold on every state the engine can produce. -/
def cleanFailure (s : GraphState) : Prop := s.failure_reason ≠ some ""

/-! ### Helper lemmas about the node prologue -/

theorem truthyStr_none : truthyStr none = false := rfl

theorem truthyStr_some_ne (m : String) (h : m ≠ "") : truthyStr (some m) = true := by
  simp [truthyStr, h]

theorem ensure_not_paused_clear (env : Env) (s : GraphState)
    (hpr : s.pause_requested = false) (hpf : env.pauseFlag = false) :
    ensure_not_paused env s = s := by
  simp [ensure_not_paused, hpr, hpf]

theorem guarded_pass (env : Env) (body : GraphState → GraphState) (s : GraphState)
    (hpr : s.pause_requested = false) (hpf : env.pauseFlag = false)
    (hnf : s.failure_reason = none) :
    guarded env body s = body s := by
  simp [guarded, ensure_not_paused_clear env s hpr hpf, hnf, truthyStr]

theorem ensure_not_paused_cases (env : Env) (s : GraphState) :
    ensure_not_paused env s = s ∨
      ensure_not_paused env s = { s with failure_reason := some "Paused by operator." } := by
  unfold ensure_not_paused
  split
  · exact Or.inr rfl
  · exact Or.inl rfl

theorem guarded_frozen (env : Env) (body : GraphState → GraphState) (s : GraphState)
    (h : truthyStr s.failure_reason = true) :
    guarded env body s = ensure_not_paused env s := by
  unfold guarded
  rcases ensure_not_paused_cases env s with he | he <;> rw [he]
  · simp [h]
  · rfl

/-! ### Field-preservation lemmas for the five nodes -/

theorem ensure_fields (env : Env) (s : GraphState) :
    (ensure_not_paused env s).critic_report = s.critic_report ∧
    (ensure_not_paused env s).risk_report = s.risk_report ∧
    (ensure_not_paused env s).compliance_report = s.compliance_report ∧
    (ensure_not_paused env s).retry_count = s.retry_count ∧
    (ensure_not_paused env s).max_retries = s.max_retries ∧
    (ensure_not_paused env s).pause_requested = s.pause_requested := by
  unfold ensure_not_paused
  split <;> exact ⟨rfl, rfl, rfl, rfl, rfl, rfl⟩

theorem ensure_frozen_truthy (env : Env) (s : GraphState)
    (h : truthyStr s.failure_reason = true) :
    truthyStr (ensure_not_paused env s).failure_reason = true := by
  unfold ensure_not_paused
  split
  · rfl
  · exact h

theorem planner_body_fields (s : GraphState) :
    (planner_body s).failure_reason = s.failure_reason ∧
    (planner_body s).retry_count = s.retry_count ∧
    (planner_body s).max_retries = s.max_retries ∧
    (planner_body s).pause_requested = s.pause_requested ∧
    (planner_body s).critic_report = s.critic_report ∧
    (planner_body s).risk_report = s.risk_report := by
  exact ⟨rfl, rfl, rfl, rfl, rfl, rfl⟩

theorem executor_body_fields (env : Env) (s : GraphState) :
    (executor_body env s).failure_reason = s.failure_reason ∧
    (executor_body env s).retry_count = s.retry_count ∧
    (executor_body env s).max_retries = s.max_retries ∧
    (executor_body env s).pause_requested = s.pause_requested ∧
    (executor_body env s).hypothesis = s.hypothesis ∧
    (executor_body env s).executor_artifacts = ExecutorAgent.execute env s.plan := by
  exact ⟨rfl, rfl, rfl, rfl, rfl, rfl⟩

theorem critic_assess_fields (cfg : EngineConfig) (env : Env) (s : GraphState) :
    (critic_assess cfg env s).failure_reason = s.failure_reason ∧
    (critic_assess cfg env s).retry_count = s.retry_count ∧
    (critic_assess cfg env s).max_retries = s.max_retries ∧
    (critic_assess cfg env s).pause_requested = s.pause_requested ∧
    (critic_assess cfg env s).risk_report = s.risk_report ∧
    (critic_assess cfg env s).compliance_report = s.compliance_report := by
  simp only [critic_assess]
  split <;> exact ⟨rfl, rfl, rfl, rfl, rfl, rfl⟩

theorem critic_decide_fields (s : GraphState) :
    (critic_decide s).critic_report = s.critic_report ∧
    (critic_decide s).max_retries = s.max_retries ∧
    (critic_decide s).pause_requested = s.pause_requested ∧
    (critic_decide s).risk_report = s.risk_report ∧
    (critic_decide s).compliance_report = s.compliance_report := by
  simp only [critic_decide]
  split
  · split <;> exact ⟨rfl, rfl, rfl, rfl, rfl⟩
  · exact ⟨rfl, rfl, rfl, rfl, rfl⟩

theorem risk_body_fields (s : GraphState) :
    (risk_body s).retry_count = s.retry_count ∧
    (risk_body s).max_retries = s.max_retries ∧
    (risk_body s).pause_requested = s.pause_requested ∧
    (risk_body s).critic_report = s.critic_report := by
  simp only [risk_body]
  split <;> exact ⟨rfl, rfl, rfl, rfl⟩

theorem approval_body_fields (env : Env) (s : GraphState) :
    (approval_body env s).retry_count = s.retry_count ∧
    (approval_body env s).max_retries = s.max_retries ∧
    (approval_body env s).critic_report = s.critic_report ∧
    (approval_body env s).risk_report = s.risk_report ∧
    (approval_body env s).compliance_report = s.compliance_report := by
  simp only [approval_body]
  split
  · exact ⟨rfl, rfl, rfl, rfl, rfl⟩
  · split <;> exact ⟨rfl, rfl, rfl, rfl, rfl⟩

/-! ### A frozen state (truthy failure_reason) passes through every node -/

theorem node_frozen (env : Env) (body : GraphState → GraphState) (s : GraphState)
    (h : truthyStr s.failure_reason = true) :
    truthyStr (guarded env body s).failure_reason = true ∧
    (guarded env body s).critic_report = s.critic_report ∧
    (guarded env body s).risk_report = s.risk_report ∧
    (guarded env body s).compliance_report = s.compliance_report ∧
    (guarded env body s).pause_requested = s.pause_requested ∧
    (guarded env body s).retry_count = s.retry_count ∧
    (guarded env body s).max_retries = s.max_retries := by
  rw [guarded_frozen env body s h]
  have hf := ensure_fields env s
  exact ⟨ensure_frozen_truthy env s h, hf.1, hf.2.1, hf.2.2.1, hf.2.2.2.2.2,
    hf.2.2.2.1, hf.2.2.2.2.1⟩

theorem withTrace_some (n : Node) (o : Option RunResult) (r : RunResult)
    (h : withTrace n o = some r) :
    ∃ q, o = some q ∧ r = { q with trace := n :: q.trace } := by
  cases o with
  | none => simp [withTrace] at h
  | some q => exact ⟨q, rfl, by simpa [withTrace] using h.symm⟩

theorem runFrom_frozen (cfg : EngineConfig) (env : Env) :
    ∀ fuel n s r, truthyStr s.failure_reason = true →
      runFrom cfg env fuel n s = some r →
      truthyStr r.state.failure_reason = true ∧
      r.state.critic_report = s.critic_report ∧
      r.state.risk_report = s.risk_report ∧
      r.state.compliance_report = s.compliance_report := by
  intro fuel
  induction fuel with
  | zero => intro n s r _ h; simp [runFrom] at h
  | succ fuel ih =>
      intro n s r hs h
      cases n with
      | planner =>
          simp only [runFrom] at h
          obtain ⟨q, hq, hr⟩ := withTrace_some _ _ _ h
          have hn := node_frozen env planner_body s hs
          have := ih .executor (planner_node env s) q hn.1 hq
          subst hr
          exact ⟨this.1, this.2.1.trans hn.2.1, this.2.2.1.trans hn.2.2.1,
            this.2.2.2.trans hn.2.2.2.1⟩
      | executor =>
          simp only [runFrom] at h
          obtain ⟨q, hq, hr⟩ := withTrace_some _ _ _ h
          have hn := node_frozen env (executor_body env) s hs
          have := ih .critic (executor_node env s) q hn.1 hq
          subst hr
          exact ⟨this.1, this.2.1.trans hn.2.1, this.2.2.1.trans hn.2.2.1,
            this.2.2.2.trans hn.2.2.2.1⟩
      | critic =>
          simp only [runFrom] at h
          have hn := node_frozen env (critic_body cfg env) s hs
          rcases hroute : route_after_critic (critic_node cfg env s) with _ | _ | _ | _ <;>
            rw [hroute] at h
          · obtain ⟨q, hq, hr⟩ := withTrace_some _ _ _ h
            have := ih .executor (critic_node cfg env s) q hn.1 hq
            subst hr
            exact ⟨this.1, this.2.1.trans hn.2.1, this.2.2.1.trans hn.2.2.1,
              this.2.2.2.trans hn.2.2.2.1⟩
          · obtain ⟨q, hq, hr⟩ := withTrace_some _ _ _ h
            have := ih .risk (critic_node cfg env s) q hn.1 hq
            subst hr
            exact ⟨this.1, this.2.1.trans hn.2.1, this.2.2.1.trans hn.2.2.1,
              this.2.2.2.trans hn.2.2.2.1⟩
          · cases h
            exact ⟨hn.1, hn.2.1, hn.2.2.1, hn.2.2.2.1⟩
          · cases h
            exact ⟨hn.1, hn.2.1, hn.2.2.1, hn.2.2.2.1⟩
      | risk =>
          simp only [runFrom] at h
          have hn := node_frozen env risk_body s hs
          rcases hroute : route_after_risk (risk_manager_node env s) with _ | _ | _ <;>
            rw [hroute] at h
          · obtain ⟨q, hq, hr⟩ := withTrace_some _ _ _ h
            have := ih .approval (risk_manager_node env s) q hn.1 hq
            subst hr
            exact ⟨this.1, this.2.1.trans hn.2.1, this.2.2.1.trans hn.2.2.1,
              this.2.2.2.trans hn.2.2.2.1⟩
          · cases h
            exact ⟨hn.1, hn.2.1, hn.2.2.1, hn.2.2.2.1⟩
          · cases h
            exact ⟨hn.1, hn.2.1, hn.2.2.1, hn.2.2.2.1⟩
      | approval =>
          simp only [runFrom] at h
          have hn := node_frozen env (approval_body env) s hs
          rcases hroute : route_after_human (human_approval_node env s) with _ | _ | _ <;>
            rw [hroute] at h <;> cases h <;>
            exact ⟨hn.1, hn.2.1, hn.2.2.1, hn.2.2.2.1⟩

/-- C9 (amended): once failure_reason holds a non-empty string — and every
reason the engine itself assigns is such a string, so this covers every state
the engine can produce — each of the five nodes leaves failure_reason truthy
(possibly overwriting it with the pause marker, never clearing it) and leaves
criticReport, riskReport and complianceReport unchanged, and so does every
completed continuation of the run. The non-empty proviso is forced: python
tests `if state.failure_reason:`, so the non-null but falsy value `""` lets a
node run its body (see the counterexample). -/
theorem failure_reason_monotonic (cfg : EngineConfig) (env : Env) (s : GraphState)
    (h : truthyStr s.failure_reason = true) :
    (∀ f ∈ [planner_node env, executor_node env, critic_node cfg env,
        risk_manager_node env, human_approval_node env],
      truthyStr (f s).failure_reason = true ∧
      (f s).critic_report = s.critic_report ∧
      (f s).risk_report = s.risk_report ∧
      (f s).compliance_report = s.compliance_report) ∧
    (∀ fuel n r, runFrom cfg env fuel n s = some r →
      truthyStr r.state.failure_reason = true ∧
      r.state.critic_report = s.critic_report ∧
      r.state.risk_report = s.risk_report ∧
      r.state.compliance_report = s.compliance_report) := by
  constructor
  · intro f hf
    simp only [List.mem_cons, List.not_mem_nil, or_false] at hf
    rcases hf with rfl | rfl | rfl | rfl | rfl
    · have hn := node_frozen env planner_body s h
      exact ⟨hn.1, hn.2.1, hn.2.2.1, hn.2.2.2.1⟩
    · have hn := node_frozen env (executor_body env) s h
      exact ⟨hn.1, hn.2.1, hn.2.2.1, hn.2.2.2.1⟩
    · have hn := node_frozen env (critic_body cfg env) s h
      exact ⟨hn.1, hn.2.1, hn.2.2.1, hn.2.2.2.1⟩
    · have hn := node_frozen env risk_body s h
      exact ⟨hn.1, hn.2.1, hn.2.2.1, hn.2.2.2.1⟩
    · have hn := node_frozen env (approval_body env) s h
      exact ⟨hn.1, hn.2.1, hn.2.2.1, hn.2.2.2.1⟩
  · intro fuel n r hr
    exact runFrom_frozen cfg env fuel n s r h hr

/-- C9 counterexample to the claim as stated: the state whose failure_reason
is `some ""` is non-null, yet python's `if state.failure_reason:` is falsy on
it, so the executor node runs its body and rewrites complianceReport. -/
theorem failure_reason_monotonic_cex :
    emptyReasonState.failure_reason ≠ none ∧
    (executor_node quietEnv emptyReasonState).compliance_report ≠
      emptyReasonState.compliance_report := by
  exact ⟨by simp [emptyReasonState], by decide⟩

/-- C9 witness: the monotonicity theorem applied to a concrete failed state. -/
theorem failure_reason_monotonic_check :
    truthyStr (planner_node quietEnv failedState).failure_reason = true ∧
    (planner_node quietEnv failedState).critic_report = failedState.critic_report := by
  have := (failure_reason_monotonic {} quietEnv failedState (by decide)).1
    (planner_node quietEnv) (by simp)
  exact ⟨this.1, this.2.1⟩

/-- C4 counterexample to the claim as stated: the consistency report the
critic's scorer (metrics.build_consistency_report) returns on empty inputs
carries prediction_consistency 0.0 but no flagged key and no reason key at
all — flagged is not true and reason is not non-null. -/
theorem consistency_report_no_flag_cex :
    (build_consistency_report [] []).prediction_consistency = 0 ∧
    (build_consistency_report [] []).flagged ≠ some true ∧
    (build_consistency_report [] []).reason = none := by
  refine ⟨rfl, by decide, rfl⟩

/-- C4 (amended): on an empty baseline prediction vector or an empty
counterfactual-prediction list, the scorer the Critic invokes returns a
report whose only entry is predictionConsistency = 0.0; the flagged = true /
reason fields of the spec exist only in FactFinValidator.consistency_check,
which nothing in the workflow invokes. -/
theorem empty_inputs_zero_consistency (b : List ℚ) (cfs : List (List ℚ))
    (h : b = [] ∨ cfs = []) :
    build_consistency_report b cfs =
      { prediction_consistency := 0, flagged := none, reason := none, threshold := none } := by
  rcases h with h | h <;> subst h <;>
    simp [build_consistency_report, prediction_consistency]

/-- C4 witness: the amended theorem applied to an empty baseline with a
non-empty counterfactual list. -/
theorem empty_inputs_zero_consistency_check :
    build_consistency_report [] [[1]] =
      { prediction_consistency := 0, flagged := none, reason := none, threshold := none } :=
  empty_inputs_zero_consistency [] [[1]] (Or.inl rfl)

/-! ### Arithmetic of the consistency score -/

theorem sum_le_length (l : List ℚ) (h : ∀ x ∈ l, x ≤ 1) : l.sum ≤ (l.length : ℚ) := by
  induction l with
  | nil => simp
  | cons a t ih =>
      have ha : a ≤ 1 := h a (by simp)
      have ht : t.sum ≤ (t.length : ℚ) := ih (fun x hx => h x (by simp [hx]))
      simp only [List.sum_cons, List.length_cons]
      push_cast
      linarith

theorem sum_eq_length_iff (l : List ℚ) (h : ∀ x ∈ l, x ≤ 1) :
    l.sum = (l.length : ℚ) ↔ ∀ x ∈ l, x = 1 := by
  induction l with
  | nil => simp
  | cons a t ih =>
      have ha : a ≤ 1 := h a (by simp)
      have ht : ∀ x ∈ t, x ≤ 1 := fun x hx => h x (by simp [hx])
      have hts : t.sum ≤ (t.length : ℚ) := sum_le_length t ht
      simp only [List.sum_cons, List.length_cons, List.mem_cons]
      push_cast
      constructor
      · intro he
        have ha1 : a = 1 := by linarith
        have ht1 : t.sum = (t.length : ℚ) := by linarith
        intro x hx
        rcases hx with rfl | hx
        · exact ha1
        · exact ((ih ht).mp ht1) x hx
      · intro hall
        have ha1 : a = 1 := hall a (Or.inl rfl)
        have ht1 : t.sum = (t.length : ℚ) := (ih ht).mpr (fun x hx => hall x (Or.inr hx))
        rw [ha1, ht1]
        ring

theorem scenarioMatchFraction_nonneg (b cf : List ℚ) :
    0 ≤ scenarioMatchFraction b cf := by
  unfold scenarioMatchFraction
  split
  · exact le_refl 0
  · positivity

theorem scenarioMatchFraction_le_one (b cf : List ℚ) :
    scenarioMatchFraction b cf ≤ 1 := by
  unfold scenarioMatchFraction
  split
  · norm_num
  · rename_i hlen
    rw [not_ne_iff] at hlen
    rcases Nat.eq_zero_or_pos b.length with hb | hb
    · simp [hb]
    · apply div_le_one_of_le₀
      · have hc : ((cf.zip b).countP (fun p => decide (sgn p.1 = sgn p.2)))
            ≤ (cf.zip b).length := List.countP_le_length _
        have hz : (cf.zip b).length = b.length := by
          rw [List.length_zip, hlen, min_self]
        exact_mod_cast hz ▸ hc
      · positivity

theorem zip_sgn_iff (cf b : List ℚ) (h : cf.length = b.length) :
    (∀ p ∈ cf.zip b, sgn p.1 = sgn p.2) ↔ cf.map sgn = b.map sgn := by
  induction cf generalizing b with
  | nil =>
      cases b with
      | nil => simp
      | cons x xs => simp at h
  | cons a t ih =>
      cases b with
      | nil => simp at h
      | cons x xs =>
          have ht := ih xs (by simpa using h)
          simp only [List.zip_cons_cons, List.mem_cons, List.map_cons, List.cons.injEq]
          constructor
          · intro hp
            exact ⟨hp (a, x) (Or.inl rfl), ht.mp (fun p hp2 => hp p (Or.inr hp2))⟩
          · rintro ⟨h1, h2⟩ p hp
            rcases hp with rfl | hp
            · exact h1
            · exact ht.mpr h2 p hp

theorem scenarioMatchFraction_eq_one_iff (b cf : List ℚ) (hb : b ≠ []) :
    scenarioMatchFraction b cf = 1 ↔ cf.map sgn = b.map sgn := by
  have hbl : 0 < b.length := List.length_pos.mpr hb
  unfold scenarioMatchFraction
  split
  · rename_i hlen
    constructor
    · intro h0
      exact absurd h0.symm one_ne_zero
    · intro hmap
      exact absurd (by simpa using congrArg List.length hmap) hlen
  · rename_i hlen
    rw [not_ne_iff] at hlen
    have hz : (cf.zip b).length = b.length := by
      rw [List.length_zip, hlen, min_self]
    rw [div_eq_one_iff_eq (by exact_mod_cast hbl.ne')]
    rw [show ((b.length : ℚ)) = (((cf.zip b).length : ℕ) : ℚ) by rw [hz]]
    rw [Nat.cast_inj]
    rw [List.countP_eq_length]
    simp only [decide_eq_true_eq]
    exact zip_sgn_iff cf b hlen

/-- C5: on a non-empty baseline and non-empty counterfactual list,
prediction_consistency is the arithmetic mean over scenarios of the
per-scenario sign-match fraction, a length-mismatched scenario contributes
exactly 0, the result lies in [0, 1], and it equals 1 exactly when every
scenario's sign vector matches the baseline's sign vector element-wise
(which forces equal lengths). -/
theorem prediction_consistency_mean_bounds (b : List ℚ) (cfs : List (List ℚ))
    (hb : b ≠ []) (hcfs : cfs ≠ []) :
    prediction_consistency b cfs
        = (cfs.map (scenarioMatchFraction b)).sum / (cfs.length : ℚ) ∧
    (∀ cf ∈ cfs, cf.length ≠ b.length → scenarioMatchFraction b cf = 0) ∧
    0 ≤ prediction_consistency b cfs ∧
    prediction_consistency b cfs ≤ 1 ∧
    (prediction_consistency b cfs = 1 ↔ ∀ cf ∈ cfs, cf.map sgn = b.map sgn) := by
  have hbl : b.length ≠ 0 := fun h0 => hb (List.length_eq_zero.mp h0)
  have hcl : cfs.length ≠ 0 := fun h0 => hcfs (List.length_eq_zero.mp h0)
  have hclq : (0 : ℚ) < (cfs.length : ℚ) := by
    exact_mod_cast Nat.pos_of_ne_zero hcl
  have hmean : prediction_consistency b cfs
      = (cfs.map (scenarioMatchFraction b)).sum / (cfs.length : ℚ) := by
    unfold prediction_consistency
    rw [if_neg]
    push_neg
    exact ⟨hbl, hcl⟩
  have hle : ∀ x ∈ cfs.map (scenarioMatchFraction b), x ≤ 1 := by
    intro x hx
    obtain ⟨cf, _, rfl⟩ := List.mem_map.mp hx
    exact scenarioMatchFraction_le_one b cf
  have hsumle : (cfs.map (scenarioMatchFraction b)).sum ≤ (cfs.length : ℚ) := by
    have := sum_le_length (cfs.map (scenarioMatchFraction b)) hle
    simpa using this
  refine ⟨hmean, ?_, ?_, ?_, ?_⟩
  · intro cf _ hlen
    unfold scenarioMatchFraction
    rw [if_pos hlen]
  · rw [hmean]
    apply div_nonneg _ (le_of_lt hclq)
    apply List.sum_nonneg
    intro x hx
    obtain ⟨cf, _, rfl⟩ := List.mem_map.mp hx
    exact scenarioMatchFraction_nonneg b cf
  · rw [hmean]
    exact div_le_one_of_le₀ hsumle (le_of_lt hclq)
  · rw [hmean, div_eq_one_iff_eq hclq.ne']
    rw [show ((cfs.length : ℚ)) = (((cfs.map (scenarioMatchFraction b)).length : ℕ) : ℚ)
      by simp]
    rw [sum_eq_length_iff _ hle]
    constructor
    · intro hall cf hcf
      exact (scenarioMatchFraction_eq_one_iff b cf hb).mp
        (hall _ (List.mem_map.mpr ⟨cf, hcf, rfl⟩))
    · intro hall x hx
      obtain ⟨cf, hcf, rfl⟩ := List.mem_map.mp hx
      exact (scenarioMatchFraction_eq_one_iff b cf hb).mpr (hall cf hcf)

/-- C5 witness: the theorem applied to baseline [1, -1] with one matching and
one sign-flipped scenario. -/
theorem prediction_consistency_mean_bounds_check :
    prediction_consistency [1, -1] [[2, -3], [-1, -1]]
        = ([[2, -3], [-1, -1]].map (scenarioMatchFraction [1, -1])).sum / (2 : ℚ) ∧
    0 ≤ prediction_consistency [1, -1] [[2, -3], [-1, -1]] ∧
    prediction_consistency [1, -1] [[2, -3], [-1, -1]] ≤ 1 := by
  have h := prediction_consistency_mean_bounds [1, -1] [[2, -3], [-1, -1]]
    (by decide) (by decide)
  exact ⟨h.1, h.2.2.1, h.2.2.2.1⟩

/-! ### Structure of the counterfactual batch -/

theorem genLoop_length (g : RngModel) (seed : ℕ) (d : Dataset) (c : CounterfactualConfig) :
    ∀ k i ctr, (genLoop g seed d c k i ctr).length = k := by
  intro k
  induction k with
  | zero => intro i ctr; rfl
  | succ k ih => intro i ctr; simp [genLoop, ih]

theorem genLoop_getElem (g : RngModel) (seed : ℕ) (d : Dataset) (c : CounterfactualConfig) :
    ∀ k j i ctr, j < k →
      (genLoop g seed d c k i ctr)[j]? =
        some (scenario_at g seed d c (i + j) (ctr + j * (d.prices.length + 1))) := by
  intro k
  induction k with
  | zero => intro j i ctr h; omega
  | succ k ih =>
      intro j i ctr h
      cases j with
      | zero =>
          simp [genLoop]
      | succ j =>
          rw [genLoop, List.getElem?_cons_succ, ih j (i + 1) (ctr + (d.prices.length + 1))
            (by omega)]
          have h1 : i + 1 + j = i + (j + 1) := by omega
          have h2 : ctr + (d.prices.length + 1) + j * (d.prices.length + 1)
              = ctr + (j + 1) * (d.prices.length + 1) := by ring
          rw [h1, h2]

theorem genLoop_sentiment (g : RngModel) (seed : ℕ) (d : Dataset) (c : CounterfactualConfig) :
    ∀ k i ctr sc, sc ∈ genLoop g seed d c k i ctr →
      sc.sentiment = d.sentiment.map (fun x => -x) := by
  intro k
  induction k with
  | zero => intro i ctr sc h; simp [genLoop] at h
  | succ k ih =>
      intro i ctr sc h
      rw [genLoop, List.mem_cons] at h
      rcases h with rfl | h
      · rfl
      · exact ih _ _ sc h

/-- C6: generate_counterfactuals is a pure function of (dataset, config,
seed) — equal seeds give equal batches — the batch holds exactly
config.scenarios scenarios, scenario j is built from the seeded stream's
counters j*(n+1) .. j*(n+1)+n-1 (its price noise, n = number of prices)
followed by counter j*(n+1)+n (its earnings shift): noise first, then shift,
per scenario; and every scenario's sentiment is the sign-inverted input
sentiment. -/
theorem generate_counterfactuals_deterministic (g : RngModel) (d : Dataset)
    (c : CounterfactualConfig) (s1 s2 : ℕ) (h : s1 = s2) :
    generate_counterfactuals g d c s1 = generate_counterfactuals g d c s2 ∧
    (generate_counterfactuals g d c s1).length = c.scenarios ∧
    (∀ j, j < c.scenarios →
      (generate_counterfactuals g d c s1)[j]? =
        some (scenario_at g s1 d c j (j * (d.prices.length + 1)))) ∧
    (∀ sc ∈ generate_counterfactuals g d c s1,
      sc.sentiment = d.sentiment.map (fun x => -x)) := by
  subst h
  refine ⟨rfl, genLoop_length g s1 d c c.scenarios 0 0, fun j hj => ?_,
    fun sc hsc => genLoop_sentiment g s1 d c c.scenarios 0 0 sc hsc⟩
  have := genLoop_getElem g s1 d c c.scenarios j 0 0 hj
  simpa using this

/-- C6 witness: the theorem applied to the all-zero generator semantics, the
empty dataset, the default config and seed 7 twice. -/
theorem generate_counterfactuals_deterministic_check :
    generate_counterfactuals zeroRng {} {} 7 = generate_counterfactuals zeroRng {} {} 7 ∧
    (generate_counterfactuals zeroRng {} {} 7).length = CounterfactualConfig.scenarios {} := by
  have h := generate_counterfactuals_deterministic zeroRng {} {} 7 7 rfl
  exact ⟨h.1, h.2.1⟩

/-- C10 counterexample to the claim as stated: artifacts whose risk_metrics
lacks the max_drawdown key (so the claim's hypothesis holds) but carries an
exposure of 2.0 — the RiskManager returns "fail", not "pass". -/
theorem missing_metric_pass_cex :
    (exposureOnlyArtifacts.risk_metrics.getD {}).max_drawdown = none ∧
    (RiskManagerAgent.evaluate exposureOnlyArtifacts).status = some "fail" ∧
    (RiskManagerAgent.evaluate exposureOnlyArtifacts).violations = some ["exposure"] := by
  refine ⟨rfl, ?_, ?_⟩ <;> norm_num [RiskManagerAgent.evaluate, exposureOnlyArtifacts]

/-- C10 (amended): evaluate substitutes 0.0 for each missing metric (visible
in the metrics it echoes back), so a missing metric never contributes a
violation; in particular when the risk_metrics entry is absent, or when both
metrics are missing, the result is status "pass" with an empty violations
list — but a present metric can still fail the check on its own. -/
theorem missing_risk_metrics_default_zero (arts : Artifacts) :
    (RiskManagerAgent.evaluate arts).metrics =
      some { max_drawdown := some ((arts.risk_metrics.getD {}).max_drawdown.getD 0),
             exposure := some ((arts.risk_metrics.getD {}).exposure.getD 0) } ∧
    ((arts.risk_metrics.getD {}).max_drawdown = none →
      "max_drawdown" ∉ (RiskManagerAgent.evaluate arts).violations.getD []) ∧
    ((arts.risk_metrics.getD {}).exposure = none →
      "exposure" ∉ (RiskManagerAgent.evaluate arts).violations.getD []) ∧
    (arts.risk_metrics = none →
      (RiskManagerAgent.evaluate arts).status = some "pass" ∧
      (RiskManagerAgent.evaluate arts).violations = some []) ∧
    ((arts.risk_metrics.getD {}).max_drawdown = none →
      (arts.risk_metrics.getD {}).exposure = none →
      (RiskManagerAgent.evaluate arts).status = some "pass" ∧
      (RiskManagerAgent.evaluate arts).violations = some []) := by
  refine ⟨?_, ?_, ?_, ?_, ?_⟩
  · simp only [RiskManagerAgent.evaluate]
  · intro hmd
    simp only [RiskManagerAgent.evaluate, hmd, Option.getD_none]
    norm_num
    intro _
    decide
  · intro hex
    simp only [RiskManagerAgent.evaluate, hex, Option.getD_none]
    norm_num
    intro _
    decide
  · intro hrm
    simp [RiskManagerAgent.evaluate, hrm]
  · intro hmd hex
    simp [RiskManagerAgent.evaluate, hmd, hex]

/-- C8: the RiskManager fails exactly when max_drawdown exceeds 0.2 or
exposure exceeds 1.0 (each breached metric listed by name, in that order); on
the concrete artifacts with max_drawdown = 0.25 it returns "fail" with
violations ["max_drawdown"]; and whenever its status on the state's executor
artifacts is not "pass", the risk node sets failureReason to exactly
"Risk manager vetoed based on limits." and the run terminates on the failed
edge. -/
theorem risk_limits_enforced (cfg : EngineConfig) (env : Env) (arts : Artifacts)
    (s : GraphState) (fuel : ℕ)
    (hpf : env.pauseFlag = false) (hpr : s.pause_requested = false)
    (hnf : s.failure_reason = none) :
    ((RiskManagerAgent.evaluate arts).status = some "fail" ↔
      1/5 < (arts.risk_metrics.getD {}).max_drawdown.getD 0 ∨
        1 < (arts.risk_metrics.getD {}).exposure.getD 0) ∧
    ((RiskManagerAgent.evaluate arts).status = some "pass" ∨
      (RiskManagerAgent.evaluate arts).status = some "fail") ∧
    ((RiskManagerAgent.evaluate arts).violations =
      some ((if 1/5 < (arts.risk_metrics.getD {}).max_drawdown.getD 0
             then ["max_drawdown"] else [])
        ++ (if 1 < (arts.risk_metrics.getD {}).exposure.getD 0
             then ["exposure"] else []))) ∧
    (RiskManagerAgent.evaluate drawdownArtifacts).status = some "fail" ∧
    (RiskManagerAgent.evaluate drawdownArtifacts).violations = some ["max_drawdown"] ∧
    ((RiskManagerAgent.evaluate s.executor_artifacts).status ≠ some "pass" →
      (risk_manager_node env s).failure_reason = some "Risk manager vetoed based on limits." ∧
      runFrom cfg env (fuel + 1) .risk s =
        some { state := risk_manager_node env s, terminal := .failed, trace := [.risk] }) := by
  have heval : ∀ a : Artifacts, (RiskManagerAgent.evaluate a).status =
      some (if ((if (1:ℚ)/5 < (a.risk_metrics.getD {}).max_drawdown.getD 0
              then ["max_drawdown"] else ([] : List String))
          ++ (if (1:ℚ) < (a.risk_metrics.getD {}).exposure.getD 0
              then ["exposure"] else [])) = [] then "pass" else "fail") :=
    fun a => rfl
  refine ⟨?_, ?_, rfl, ?_, ?_, ?_⟩
  · rw [heval]
    rcases lt_or_le ((1:ℚ)/5) ((arts.risk_metrics.getD {}).max_drawdown.getD 0) with h1 | h1 <;>
      rcases lt_or_le (1:ℚ) ((arts.risk_metrics.getD {}).exposure.getD 0) with h2 | h2
    · rw [if_pos h1, if_pos h2]
      exact ⟨fun _ => Or.inl h1, fun _ => by simp⟩
    · rw [if_pos h1, if_neg (not_lt.mpr h2)]
      exact ⟨fun _ => Or.inl h1, fun _ => by simp⟩
    · rw [if_neg (not_lt.mpr h1), if_pos h2]
      exact ⟨fun _ => Or.inr h2, fun _ => by simp⟩
    · rw [if_neg (not_lt.mpr h1), if_neg (not_lt.mpr h2)]
      constructor
      · intro hc
        simp at hc
      · rintro (hc | hc)
        · exact absurd hc (not_lt.mpr h1)
        · exact absurd hc (not_lt.mpr h2)
  · rw [heval]
    rcases lt_or_le ((1:ℚ)/5) ((arts.risk_metrics.getD {}).max_drawdown.getD 0) with h1 | h1 <;>
      rcases lt_or_le (1:ℚ) ((arts.risk_metrics.getD {}).exposure.getD 0) with h2 | h2
    · rw [if_pos h1, if_pos h2]
      exact Or.inr (by simp)
    · rw [if_pos h1, if_neg (not_lt.mpr h2)]
      exact Or.inr (by simp)
    · rw [if_neg (not_lt.mpr h1), if_pos h2]
      exact Or.inr (by simp)
    · rw [if_neg (not_lt.mpr h1), if_neg (not_lt.mpr h2)]
      exact Or.inl (by simp)
  · norm_num [RiskManagerAgent.evaluate, drawdownArtifacts]
  · norm_num [RiskManagerAgent.evaluate, drawdownArtifacts]
  · intro hfail
    have hnode : risk_manager_node env s = risk_body s :=
      guarded_pass env risk_body s hpr hpf hnf
    have hbody : (risk_body s).failure_reason
        = some "Risk manager vetoed based on limits." := by
      unfold risk_body
      rw [if_pos]
      simpa using hfail
    constructor
    · rw [hnode]; exact hbody
    · have hroute : route_after_risk (risk_manager_node env s) = .fail := by
        unfold route_after_risk
        rw [hnode]
        rw [if_neg (by rw [(risk_body_fields s).2.2.1, hpr]; exact Bool.false_ne_true)]
        rw [if_pos (by rw [hbody]; rfl)]
      simp only [runFrom]
      rw [hroute]

/-- C8 witness: the theorem applied to the 0.25-drawdown artifacts and a
state carrying them. -/
theorem risk_limits_enforced_check :
    (RiskManagerAgent.evaluate drawdownArtifacts).status = some "fail" ∧
    (RiskManagerAgent.evaluate drawdownArtifacts).violations = some ["max_drawdown"] ∧
    (risk_manager_node quietEnv riskFailState).failure_reason =
      some "Risk manager vetoed based on limits." := by
  have h := risk_limits_enforced {} quietEnv drawdownArtifacts riskFailState 0
    rfl rfl rfl
  have heng := h.2.2.2.2.2 (by
    norm_num [RiskManagerAgent.evaluate, riskFailState, drawdownArtifacts]
    decide)
  exact ⟨h.2.2.2.1, h.2.2.2.2.1, heng.1⟩

/-! ### Which failure reasons a node can introduce -/

theorem ensure_failure_values (env : Env) (s : GraphState) :
    (ensure_not_paused env s).failure_reason = s.failure_reason ∨
    (ensure_not_paused env s).failure_reason = some "Paused by operator." := by
  rcases ensure_not_paused_cases env s with he | he <;> rw [he]
  · exact Or.inl rfl
  · exact Or.inr rfl

theorem critic_decide_failure (s : GraphState) :
    (critic_decide s).failure_reason = s.failure_reason ∨
    (critic_decide s).failure_reason = some "Max retries exceeded after critic veto." := by
  simp only [critic_decide]
  split
  · split
    · exact Or.inl rfl
    · exact Or.inr rfl
  · exact Or.inl rfl

theorem risk_body_failure (s : GraphState) :
    (risk_body s).failure_reason = s.failure_reason ∨
    (risk_body s).failure_reason = some "Risk manager vetoed based on limits." := by
  simp only [risk_body]
  split
  · exact Or.inr rfl
  · exact Or.inl rfl

theorem approval_body_failure (env : Env) (s : GraphState) :
    (approval_body env s).failure_reason = s.failure_reason ∨
    (approval_body env s).failure_reason = some "Rejected by human approver." := by
  simp only [approval_body]
  split
  · exact Or.inl rfl
  · split
    · exact Or.inr rfl
    · exact Or.inl rfl

/-- Every node either keeps failure_reason or replaces it with one of the
engine's four fixed (non-empty) messages — stated as preserving
`cleanFailure`. -/
theorem guarded_clean (env : Env) (body : GraphState → GraphState) (s : GraphState)
    (hbody : ∀ t, cleanFailure t → cleanFailure (body t))
    (h : cleanFailure s) : cleanFailure (guarded env body s) := by
  simp only [guarded]
  have hens : cleanFailure (ensure_not_paused env s) := by
    rcases ensure_failure_values env s with he | he <;> unfold cleanFailure <;> rw [he]
    · exact h
    · simp
  split
  · exact hens
  · exact hbody _ hens

theorem planner_node_clean (env : Env) (s : GraphState) (h : cleanFailure s) :
    cleanFailure (planner_node env s) :=
  guarded_clean env planner_body s
    (fun t ht => by unfold cleanFailure; rw [(planner_body_fields t).1]; exact ht) h

theorem executor_node_clean (env : Env) (s : GraphState) (h : cleanFailure s) :
    cleanFailure (executor_node env s) :=
  guarded_clean env (executor_body env) s
    (fun t ht => by unfold cleanFailure; rw [(executor_body_fields env t).1]; exact ht) h

theorem critic_node_clean (cfg : EngineConfig) (env : Env) (s : GraphState)
    (h : cleanFailure s) : cleanFailure (critic_node cfg env s) := by
  apply guarded_clean env (critic_body cfg env) s _ h
  intro t ht
  unfold critic_body cleanFailure
  show (critic_decide (critic_assess cfg env t)).failure_reason ≠ some ""
  rcases critic_decide_failure (critic_assess cfg env t) with hd | hd <;> rw [hd]
  · rw [(critic_assess_fields cfg env t).1]
    exact ht
  · simp

theorem risk_node_clean (env : Env) (s : GraphState) (h : cleanFailure s) :
    cleanFailure (risk_manager_node env s) := by
  apply guarded_clean env risk_body s _ h
  intro t ht
  unfold cleanFailure
  rcases risk_body_failure t with hd | hd <;> rw [hd]
  · exact ht
  · simp

theorem approval_node_clean (env : Env) (s : GraphState) (h : cleanFailure s) :
    cleanFailure (human_approval_node env s) := by
  apply guarded_clean env (approval_body env) s _ h
  intro t ht
  unfold cleanFailure
  rcases approval_body_failure env t with hd | hd <;> rw [hd]
  · exact ht
  · simp

/-- A completed run from a clean state ends clean: the engine never produces
the empty-string failure reason. -/
theorem runFrom_clean (cfg : EngineConfig) (env : Env) :
    ∀ fuel n s r, cleanFailure s → runFrom cfg env fuel n s = some r →
      cleanFailure r.state := by
  intro fuel
  induction fuel with
  | zero => intro n s r _ h; simp [runFrom] at h
  | succ fuel ih =>
      intro n s r hs h
      cases n with
      | planner =>
          simp only [runFrom] at h
          obtain ⟨q, hq, hr⟩ := withTrace_some _ _ _ h
          have := ih .executor _ q (planner_node_clean env s hs) hq
          subst hr
          exact this
      | executor =>
          simp only [runFrom] at h
          obtain ⟨q, hq, hr⟩ := withTrace_some _ _ _ h
          have := ih .critic _ q (executor_node_clean env s hs) hq
          subst hr
          exact this
      | critic =>
          simp only [runFrom] at h
          have hc := critic_node_clean cfg env s hs
          rcases hroute : route_after_critic (critic_node cfg env s) with _ | _ | _ | _ <;>
            rw [hroute] at h
          · obtain ⟨q, hq, hr⟩ := withTrace_some _ _ _ h
            have := ih .executor _ q hc hq
            subst hr
            exact this
          · obtain ⟨q, hq, hr⟩ := withTrace_some _ _ _ h
            have := ih .risk _ q hc hq
            subst hr
            exact this
          · cases h; exact hc
          · cases h; exact hc
      | risk =>
          simp only [runFrom] at h
          have hc := risk_node_clean env s hs
          rcases hroute : route_after_risk (risk_manager_node env s) with _ | _ | _ <;>
            rw [hroute] at h
          · obtain ⟨q, hq, hr⟩ := withTrace_some _ _ _ h
            have := ih .approval _ q hc hq
            subst hr
            exact this
          · cases h; exact hc
          · cases h; exact hc
      | approval =>
          simp only [runFrom] at h
          have hc := approval_node_clean env s hs
          rcases hroute : route_after_human (human_approval_node env s) with _ | _ | _ <;>
            rw [hroute] at h <;> cases h <;> exact hc

/-- C7: when the approval node reads no external decision, it leaves
awaitingApproval = true, sets pauseRequested = true, keeps failureReason
none, and the run ends on the paused terminal edge; and the entry point
returns the final state exactly when its failure_reason is none, raising the
reason otherwise (on every state the engine produces, truthiness and
non-nullness of failure_reason agree, by the clean-failure invariant). -/
theorem approval_absent_pauses (cfg : EngineConfig) (env : Env) (s : GraphState) (fuel : ℕ)
    (hpf : env.pauseFlag = false) (hpr : s.pause_requested = false)
    (hnf : s.failure_reason = none) (happ : env.approvalValue = none) :
    (human_approval_node env s).awaiting_approval = true ∧
    (human_approval_node env s).pause_requested = true ∧
    (human_approval_node env s).failure_reason = none ∧
    runFrom cfg env (fuel + 1) .approval s =
      some { state := human_approval_node env s, terminal := .paused, trace := [.approval] } ∧
    (∀ hyp fl r, runFrom cfg env fl .planner (initial_state cfg hyp) = some r →
      run_graph cfg env fl hyp =
        some (match r.state.failure_reason with
              | none => .ok r.state
              | some m => .error m)) := by
  have hnode : human_approval_node env s = approval_body env s :=
    guarded_pass env (approval_body env) s hpr hpf hnf
  have hbody : approval_body env s =
      ({ s with
          active_node := "human_approval"
          awaiting_approval := true
          pause_requested := true }).addLog "Awaiting human approval" := by
    simp only [approval_body]
    rw [if_neg (by rw [happ]; simp), if_neg (by rw [happ]; simp)]
  have hawait : (human_approval_node env s).awaiting_approval = true := by
    rw [hnode, hbody]; rfl
  have hpause : (human_approval_node env s).pause_requested = true := by
    rw [hnode, hbody]; rfl
  have hfail : (human_approval_node env s).failure_reason = none := by
    rw [hnode, hbody]; exact hnf
  refine ⟨hawait, hpause, hfail, ?_, ?_⟩
  · have hroute : route_after_human (human_approval_node env s) = .paused := by
      unfold route_after_human
      rw [if_pos hpause]
    simp only [runFrom]
    rw [hroute]
  · intro hyp fl r hr
    have hclean : cleanFailure r.state :=
      runFrom_clean cfg env fl .planner (initial_state cfg hyp) r
        (by unfold cleanFailure initial_state; simp) hr
    unfold run_graph
    rw [hr]
    rcases hfr : r.state.failure_reason with _ | m
    · simp [truthyStr, hfr]
    · have hm : m ≠ "" := by
        intro he
        exact hclean (by rw [hfr, he])
      simp [truthyStr, hfr, hm]

/-- C7 witness: the theorem applied to a concrete run-ready state with no
approval decision present. -/
theorem approval_absent_pauses_check :
    (human_approval_node quietEnv riskFailState).awaiting_approval = true ∧
    (human_approval_node quietEnv riskFailState).pause_requested = true ∧
    (human_approval_node quietEnv riskFailState).failure_reason = none := by
  have h := approval_absent_pauses {} quietEnv riskFailState 0 rfl rfl rfl rfl
  exact ⟨h.1, h.2.1, h.2.2.1⟩

/-- C2 counterexample to the claim as stated: with the pause flag present
before the planner runs, the run terminates on the FAILED edge (not the
paused one) and the entry point raises "Paused by operator.". -/
theorem pause_terminal_not_paused_cex :
    (runFrom {} pausedEnv 9 .planner (initial_state {} "H")).map RunResult.terminal
      = some Terminal.failed ∧
    (runFrom {} pausedEnv 9 .planner (initial_state {} "H")).map RunResult.terminal
      ≠ some Terminal.paused ∧
    run_graph {} pausedEnv 9 "H" = some (Except.error "Paused by operator.") := by
  refine ⟨rfl, by decide, rfl⟩

/-- C2 (amended): with the pause signal present before the planner runs, the
planner is a no-op except for writing failureReason = "Paused by operator."
(plan, artifacts, messages untouched, activeNode still empty); the executor
and critic then pass the state through unchanged and the run terminates on
the failed edge, the entry point raising "Paused by operator." — the
operator halt is terminal-failed, not terminal-paused (the paused edge is
taken only on an in-state pause_requested, which the flag never sets). -/
theorem pause_before_planner (cfg : EngineConfig) (env : Env) (hyp : String) (fuel : ℕ)
    (hpf : env.pauseFlag = true) :
    planner_node env (initial_state cfg hyp) =
      { initial_state cfg hyp with failure_reason := some "Paused by operator." } ∧
    (planner_node env (initial_state cfg hyp)).active_node = "" ∧
    (planner_node env (initial_state cfg hyp)).plan = [] ∧
    runFrom cfg env (fuel + 3) .planner (initial_state cfg hyp) =
      some { state := { initial_state cfg hyp with failure_reason := some "Paused by operator." },
             terminal := .failed, trace := [.planner, .executor, .critic] } ∧
    run_graph cfg env (fuel + 3) hyp = some (.error "Paused by operator.") := by
  have hens : ∀ s : GraphState, ensure_not_paused env s =
      { s with failure_reason := some "Paused by operator." } := by
    intro s
    unfold ensure_not_paused
    rw [if_pos]
    rw [hpf]
    simp
  have hskip : ∀ (body : GraphState → GraphState) (s : GraphState),
      s.failure_reason = some "Paused by operator." → guarded env body s = s := by
    intro body s h
    rw [guarded_frozen env body s (by rw [h]; rfl), hens s, ← h]
  have h1 : planner_node env (initial_state cfg hyp) =
      { initial_state cfg hyp with failure_reason := some "Paused by operator." } := by
    unfold planner_node guarded
    rw [hens]
    rfl
  have h2 : executor_node env
      ({ initial_state cfg hyp with failure_reason := some "Paused by operator." }) =
      { initial_state cfg hyp with failure_reason := some "Paused by operator." } :=
    hskip (executor_body env) _ rfl
  have h3 : critic_node cfg env
      ({ initial_state cfg hyp with failure_reason := some "Paused by operator." }) =
      { initial_state cfg hyp with failure_reason := some "Paused by operator." } :=
    hskip (critic_body cfg env) _ rfl
  have hroute : route_after_critic
      ({ initial_state cfg hyp with failure_reason := some "Paused by operator." }) = .fail := by
    unfold route_after_critic
    rw [if_neg (by exact Bool.false_ne_true), if_pos (by rfl)]
  have hrun : runFrom cfg env (fuel + 3) .planner (initial_state cfg hyp) =
      some { state := { initial_state cfg hyp with failure_reason := some "Paused by operator." },
             terminal := .failed, trace := [.planner, .executor, .critic] } := by
    show runFrom cfg env (fuel + 1 + 1 + 1) .planner (initial_state cfg hyp) = _
    simp only [runFrom]
    rw [h1, h2, h3, hroute]
    rfl
  refine ⟨h1, by rw [h1]; rfl, by rw [h1]; rfl, hrun, ?_⟩
  unfold run_graph
  rw [show fuel + 3 = fuel + 1 + 1 + 1 by omega] at hrun ⊢
  rw [hrun]
  rfl

/-- C2 witness: the amended theorem applied to the paused environment. -/
theorem pause_before_planner_check :
    (planner_node pausedEnv (initial_state {} "H")).active_node = "" ∧
    run_graph {} pausedEnv 9 "H" = some (Except.error "Paused by operator.") := by
  have h := pause_before_planner {} pausedEnv "H" 6 rfl
  exact ⟨h.2.1, h.2.2.2.2⟩

/-! ### Shape of one critic step -/

theorem getD_false_eq_true (o : Option Bool) (h : o.getD false = true) : o = some true := by
  cases o with
  | none => simp at h
  | some b => simpa using h

theorem critic_assess_veto_isSome (cfg : EngineConfig) (env : Env) (s : GraphState) :
    ∃ b, (critic_assess cfg env s).critic_report.veto = some b := by
  simp only [critic_assess]
  split
  · exact ⟨true, rfl⟩
  · exact ⟨_, rfl⟩

/-- The critic node either short-circuits on a frozen prologue state or runs
assessment followed by the retry decision and the final log line. -/
theorem critic_node_cases (cfg : EngineConfig) (env : Env) (s : GraphState) :
    (truthyStr (ensure_not_paused env s).failure_reason = true ∧
      critic_node cfg env s = ensure_not_paused env s) ∨
    (truthyStr (ensure_not_paused env s).failure_reason = false ∧
      critic_node cfg env s =
        (critic_decide (critic_assess cfg env (ensure_not_paused env s))).addLog
          "Critic issued report") := by
  unfold critic_node
  simp only [guarded]
  by_cases h : truthyStr (ensure_not_paused env s).failure_reason = true
  · exact Or.inl ⟨h, by rw [if_pos h]⟩
  · refine Or.inr ⟨by simpa using h, ?_⟩
    rw [if_neg h]
    rfl

theorem critic_body_retry (cfg : EngineConfig) (env : Env) (t : GraphState) :
    ((critic_decide (critic_assess cfg env t)).addLog "Critic issued report").max_retries
        = t.max_retries ∧
    (((critic_decide (critic_assess cfg env t)).addLog "Critic issued report").retry_count
        = t.retry_count ∨
      (t.retry_count < t.max_retries ∧
       ((critic_decide (critic_assess cfg env t)).addLog "Critic issued report").retry_count
        = t.retry_count + 1)) := by
  have ha := critic_assess_fields cfg env t
  constructor
  · show (critic_decide (critic_assess cfg env t)).max_retries = t.max_retries
    rw [(critic_decide_fields _).2.1, ha.2.2.1]
  · show (critic_decide (critic_assess cfg env t)).retry_count = t.retry_count ∨
      (t.retry_count < t.max_retries ∧
        (critic_decide (critic_assess cfg env t)).retry_count = t.retry_count + 1)
    simp only [critic_decide]
    split
    · split
      · rename_i hlt
        rw [ha.2.1, ha.2.2.1] at hlt
        refine Or.inr ⟨hlt, ?_⟩
        show (critic_assess cfg env t).retry_count + 1 = t.retry_count + 1
        rw [ha.2.1]
      · exact Or.inl ha.2.1
    · exact Or.inl ha.2.1

theorem critic_node_retry_cases (cfg : EngineConfig) (env : Env) (s : GraphState) :
    (critic_node cfg env s).max_retries = s.max_retries ∧
    ((critic_node cfg env s).retry_count = s.retry_count ∨
      (s.retry_count < s.max_retries ∧
       (critic_node cfg env s).retry_count = s.retry_count + 1)) := by
  have he := ensure_fields env s
  rcases critic_node_cases cfg env s with ⟨_, heq⟩ | ⟨_, heq⟩ <;> rw [heq]
  · exact ⟨he.2.2.2.2.1, Or.inl he.2.2.2.1⟩
  · have hb := critic_body_retry cfg env (ensure_not_paused env s)
    constructor
    · rw [hb.1, he.2.2.2.2.1]
    · rcases hb.2 with h | ⟨hlt, h⟩
      · exact Or.inl (by rw [h, he.2.2.2.1])
      · refine Or.inr ⟨?_, by rw [h, he.2.2.2.1]⟩
        rw [he.2.2.2.1, he.2.2.2.2.1] at hlt
        exact hlt

/-- Whenever route_after_critic sends the run back to the executor, the
critic step has just consumed one retry: the veto was set, retry_count was
still below max_retries and was incremented. -/
theorem route_executor_incr (cfg : EngineConfig) (env : Env) (s : GraphState)
    (h : route_after_critic (critic_node cfg env s) = .executor) :
    (critic_node cfg env s).retry_count = s.retry_count + 1 ∧
    s.retry_count < s.max_retries := by
  unfold route_after_critic at h
  by_cases hp : (critic_node cfg env s).pause_requested = true
  · rw [if_pos hp] at h
    simp at h
  · rw [if_neg hp] at h
    by_cases hf : truthyStr (critic_node cfg env s).failure_reason = true
    · rw [if_pos hf] at h
      simp at h
    · rw [if_neg hf] at h
      by_cases hv : (critic_node cfg env s).critic_report.veto.getD true = true
      · have he := ensure_fields env s
        rcases critic_node_cases cfg env s with ⟨hfr, heq⟩ | ⟨_, heq⟩
        · rw [heq] at hf
          exact absurd hfr hf
        · rw [heq] at hf hv ⊢
          obtain ⟨b, hbv⟩ := critic_assess_veto_isSome cfg env (ensure_not_paused env s)
          rcases Bool.eq_false_or_eq_true b with hb | hb
          on_goal 2 =>
            exfalso
            rw [hb] at hbv
            have hvf : ((critic_decide (critic_assess cfg env (ensure_not_paused env s))).addLog
                "Critic issued report").critic_report.veto = some false := by
              show (critic_decide (critic_assess cfg env
                (ensure_not_paused env s))).critic_report.veto = some false
              rw [(critic_decide_fields _).1, hbv]
            rw [hvf] at hv
            simp at hv
          rw [hb] at hbv
          have hcond : (critic_assess cfg env
              (ensure_not_paused env s)).critic_report.veto.getD false = true := by
            rw [hbv]
            rfl
          by_cases hlt : (critic_assess cfg env (ensure_not_paused env s)).retry_count
              < (critic_assess cfg env (ensure_not_paused env s)).max_retries
          · have hstep : critic_decide (critic_assess cfg env (ensure_not_paused env s)) =
                ({ critic_assess cfg env (ensure_not_paused env s) with
                    retry_count := (critic_assess cfg env (ensure_not_paused env s)).retry_count + 1
                  }).addLog "Critic vetoed; retrying executor" := by
              simp only [critic_decide]
              rw [if_pos hcond, if_pos hlt]
            have ha := critic_assess_fields cfg env (ensure_not_paused env s)
            constructor
            · show (critic_decide (critic_assess cfg env (ensure_not_paused env s))).retry_count
                  = s.retry_count + 1
              rw [hstep]
              show (critic_assess cfg env (ensure_not_paused env s)).retry_count + 1
                  = s.retry_count + 1
              rw [ha.2.1, he.2.2.2.1]
            · rw [ha.2.1, ha.2.2.1, he.2.2.2.1, he.2.2.2.2.1] at hlt
              exact hlt
          · exfalso
            have hstep : critic_decide (critic_assess cfg env (ensure_not_paused env s)) =
                { critic_assess cfg env (ensure_not_paused env s) with
                    failure_reason := some "Max retries exceeded after critic veto." } := by
              simp only [critic_decide]
              rw [if_pos hcond, if_neg hlt]
            apply hf
            show truthyStr (critic_decide (critic_assess cfg env
                (ensure_not_paused env s))).failure_reason = true
            rw [hstep]
            rfl
      · rw [if_neg hv] at h
        simp at h

theorem planner_node_retry (env : Env) (s : GraphState) :
    (planner_node env s).retry_count = s.retry_count ∧
    (planner_node env s).max_retries = s.max_retries := by
  have he := ensure_fields env s
  unfold planner_node
  simp only [guarded]
  split
  · exact ⟨he.2.2.2.1, he.2.2.2.2.1⟩
  · exact ⟨(planner_body_fields _).2.1.trans he.2.2.2.1,
      (planner_body_fields _).2.2.1.trans he.2.2.2.2.1⟩

theorem executor_node_retry (env : Env) (s : GraphState) :
    (executor_node env s).retry_count = s.retry_count ∧
    (executor_node env s).max_retries = s.max_retries := by
  have he := ensure_fields env s
  unfold executor_node
  simp only [guarded]
  split
  · exact ⟨he.2.2.2.1, he.2.2.2.2.1⟩
  · exact ⟨(executor_body_fields env _).2.1.trans he.2.2.2.1,
      (executor_body_fields env _).2.2.1.trans he.2.2.2.2.1⟩

theorem risk_node_retry (env : Env) (s : GraphState) :
    (risk_manager_node env s).retry_count = s.retry_count ∧
    (risk_manager_node env s).max_retries = s.max_retries := by
  have he := ensure_fields env s
  unfold risk_manager_node
  simp only [guarded]
  split
  · exact ⟨he.2.2.2.1, he.2.2.2.2.1⟩
  · exact ⟨(risk_body_fields _).1.trans he.2.2.2.1,
      (risk_body_fields _).2.1.trans he.2.2.2.2.1⟩

theorem approval_node_retry (env : Env) (s : GraphState) :
    (human_approval_node env s).retry_count = s.retry_count ∧
    (human_approval_node env s).max_retries = s.max_retries := by
  have he := ensure_fields env s
  unfold human_approval_node
  simp only [guarded]
  split
  · exact ⟨he.2.2.2.1, he.2.2.2.2.1⟩
  · exact ⟨(approval_body_fields env _).1.trans he.2.2.2.1,
      (approval_body_fields env _).2.1.trans he.2.2.2.2.1⟩

theorem count_exec_cons (n : Node) (tr : List Node) :
    (n :: tr).count Node.executor
      = tr.count Node.executor + (if n = Node.executor then 1 else 0) := by
  rcases n with _ | _ | _ | _ | _ <;> simp [List.count_cons]

/-- Retry-count accounting over a completed run: max_retries is constant,
retry_count never decreases, never climbs past max(initial retry, max), and
every executor entry in the trace beyond the entry bonus is paid for by a
retry increment. -/
theorem runFrom_retry_accounting (cfg : EngineConfig) (env : Env) :
    ∀ fuel n s r, runFrom cfg env fuel n s = some r →
      r.state.max_retries = s.max_retries ∧
      s.retry_count ≤ r.state.retry_count ∧
      r.state.retry_count ≤ max s.retry_count s.max_retries ∧
      r.trace.count Node.executor + s.retry_count ≤ r.state.retry_count + entryBonus n := by
  have hb1 : entryBonus Node.planner = 1 := rfl
  have hb2 : entryBonus Node.executor = 1 := rfl
  have hb3 : entryBonus Node.critic = 0 := rfl
  have hb4 : entryBonus Node.risk = 0 := rfl
  have hb5 : entryBonus Node.approval = 0 := rfl
  intro fuel
  induction fuel with
  | zero => intro n s r h; simp [runFrom] at h
  | succ fuel ih =>
      intro n s r h
      cases n with
      | planner =>
          simp only [runFrom] at h
          obtain ⟨q, hq, hr⟩ := withTrace_some _ _ _ h
          have hn := planner_node_retry env s
          have hi := ih .executor (planner_node env s) q hq
          subst hr
          dsimp only
          rw [hn.1, hn.2] at hi
          have hcount : (Node.planner :: q.trace).count Node.executor
              = q.trace.count Node.executor := by simp [List.count_cons]
          refine ⟨hi.1, hi.2.1, hi.2.2.1, ?_⟩
          have hthis := hi.2.2.2
          rw [hb2] at hthis
          rw [hcount, hb1]
          omega
      | executor =>
          simp only [runFrom] at h
          obtain ⟨q, hq, hr⟩ := withTrace_some _ _ _ h
          have hn := executor_node_retry env s
          have hi := ih .critic (executor_node env s) q hq
          subst hr
          dsimp only
          rw [hn.1, hn.2] at hi
          have hcount : (Node.executor :: q.trace).count Node.executor
              = q.trace.count Node.executor + 1 := by simp [List.count_cons]
          refine ⟨hi.1, hi.2.1, hi.2.2.1, ?_⟩
          have hthis := hi.2.2.2
          rw [hb3] at hthis
          rw [hcount, hb2]
          omega
      | critic =>
          simp only [runFrom] at h
          have hn := critic_node_retry_cases cfg env s
          have hcn : ∀ tr : List Node, (Node.critic :: tr).count Node.executor
              = tr.count Node.executor := by intro tr; simp [List.count_cons]
          have hnil : ([] : List Node).count Node.executor = 0 := rfl
          rcases hroute : route_after_critic (critic_node cfg env s) with _ | _ | _ | _ <;>
            rw [hroute] at h
          · obtain ⟨q, hq, hr⟩ := withTrace_some _ _ _ h
            have hincr := route_executor_incr cfg env s hroute
            have hi := ih .executor (critic_node cfg env s) q hq
            subst hr
            dsimp only
            rw [hincr.1, hn.1] at hi
            have hlt := hincr.2
            have hthis := hi.2.2.2
            rw [hb2] at hthis
            refine ⟨hi.1, by omega, ?_, ?_⟩
            · have := hi.2.2.1
              omega
            · rw [hcn q.trace, hb3]
              omega
          · obtain ⟨q, hq, hr⟩ := withTrace_some _ _ _ h
            have hi := ih .risk (critic_node cfg env s) q hq
            subst hr
            dsimp only
            rw [hn.1] at hi
            have hthis := hi.2.2.2
            rw [hb4] at hthis
            have hup := hi.2.2.1
            have hmono := hi.2.1
            rcases hn.2 with hc | ⟨hlt, hc⟩ <;> rw [hc] at hthis hup hmono <;>
              refine ⟨hi.1, by omega, by omega, ?_⟩ <;>
              rw [hcn q.trace, hb3] <;> omega
          · cases h
            dsimp only
            rcases hn.2 with hc | ⟨hlt, hc⟩ <;>
              refine ⟨hn.1, ?_, ?_, ?_⟩ <;> rw [hc] <;> try rw [hcn [], hnil, hb3]
            all_goals omega
          · cases h
            dsimp only
            rcases hn.2 with hc | ⟨hlt, hc⟩ <;>
              refine ⟨hn.1, ?_, ?_, ?_⟩ <;> rw [hc] <;> try rw [hcn [], hnil, hb3]
            all_goals omega
      | risk =>
          simp only [runFrom] at h
          have hn := risk_node_retry env s
          have hcr : ∀ tr : List Node, (Node.risk :: tr).count Node.executor
              = tr.count Node.executor := by intro tr; simp [List.count_cons]
          rcases hroute : route_after_risk (risk_manager_node env s) with _ | _ | _ <;>
            rw [hroute] at h
          · obtain ⟨q, hq, hr⟩ := withTrace_some _ _ _ h
            have hi := ih .approval (risk_manager_node env s) q hq
            subst hr
            dsimp only
            rw [hn.1, hn.2] at hi
            have hthis := hi.2.2.2
            rw [hb5] at hthis
            refine ⟨hi.1, hi.2.1, hi.2.2.1, ?_⟩
            rw [hcr q.trace, hb4]
            omega
          · cases h
            dsimp only
            rw [hn.1, hn.2]
            refine ⟨rfl, le_refl _, le_max_left _ _, ?_⟩
            have hc0 : List.count Node.executor [Node.risk] = 0 := rfl
            rw [hc0, hb4]
            omega
          · cases h
            dsimp only
            rw [hn.1, hn.2]
            refine ⟨rfl, le_refl _, le_max_left _ _, ?_⟩
            have hc0 : List.count Node.executor [Node.risk] = 0 := rfl
            rw [hc0, hb4]
            omega
      | approval =>
          simp only [runFrom] at h
          have hn := approval_node_retry env s
          rcases hroute : route_after_human (human_approval_node env s) with _ | _ | _ <;>
            rw [hroute] at h <;> cases h <;> dsimp only <;> rw [hn.1, hn.2] <;>
            refine ⟨rfl, le_refl _, le_max_left _ _, ?_⟩ <;>
            rw [show List.count Node.executor [Node.approval] = 0 from rfl, hb5] <;> omega

/-- C1: at a critic entry whose fresh report carries veto = true (pause flag
absent, no prior failure), the engine re-enters the executor — incrementing
retryCount — exactly while retryCount < maxRetries; once retryCount has
reached maxRetries the veto sets failureReason to exactly
"Max retries exceeded after critic veto." and the run terminates on the
failed edge; over any completed run the executor is entered at most
maxRetries + 1 times; and with maxRetries = 0 the first veto terminates the
run failed with no executor re-entry. -/
theorem critic_retry_loop_bounded (cfg : EngineConfig) (env : Env) (s : GraphState)
    (hpf : env.pauseFlag = false) (hpr : s.pause_requested = false)
    (hnf : s.failure_reason = none)
    (hveto : (critic_node cfg env s).critic_report.veto.getD false = true) :
    (s.retry_count < s.max_retries →
      (critic_node cfg env s).retry_count = s.retry_count + 1 ∧
      (critic_node cfg env s).failure_reason = none ∧
      route_after_critic (critic_node cfg env s) = .executor) ∧
    (s.max_retries ≤ s.retry_count →
      (critic_node cfg env s).failure_reason
          = some "Max retries exceeded after critic veto." ∧
      route_after_critic (critic_node cfg env s) = .fail ∧
      ∀ fuel, runFrom cfg env (fuel + 1) .critic s =
        some { state := critic_node cfg env s, terminal := .failed, trace := [.critic] }) ∧
    (∀ fuel n r, s.retry_count ≤ s.max_retries → runFrom cfg env fuel n s = some r →
      r.trace.count Node.executor ≤ s.max_retries + 1) ∧
    (s.max_retries = 0 →
      ∀ fuel, runFrom cfg env (fuel + 1) .critic s =
        some { state := critic_node cfg env s, terminal := .failed, trace := [.critic] } ∧
        (critic_node cfg env s).failure_reason
          = some "Max retries exceeded after critic veto.") := by
  have heq : critic_node cfg env s
      = (critic_decide (critic_assess cfg env s)).addLog "Critic issued report" :=
    guarded_pass env (critic_body cfg env) s hpr hpf hnf
  have ha := critic_assess_fields cfg env s
  have hA : (critic_assess cfg env s).critic_report.veto.getD false = true := by
    rw [heq] at hveto
    have : (critic_decide (critic_assess cfg env s)).critic_report
        = (critic_assess cfg env s).critic_report := (critic_decide_fields _).1
    rw [show ((critic_decide (critic_assess cfg env s)).addLog
        "Critic issued report").critic_report
      = (critic_decide (critic_assess cfg env s)).critic_report from rfl, this] at hveto
    exact hveto
  have hv2 : (critic_assess cfg env s).critic_report.veto = some true :=
    getD_false_eq_true _ hA
  have hpause : (critic_node cfg env s).pause_requested = false := by
    rw [heq]
    show (critic_decide (critic_assess cfg env s)).pause_requested = false
    rw [(critic_decide_fields _).2.2.1, ha.2.2.2.1, hpr]
  have hrep : (critic_node cfg env s).critic_report.veto = some true := by
    rw [heq]
    show (critic_decide (critic_assess cfg env s)).critic_report.veto = some true
    rw [(critic_decide_fields _).1, hv2]
  have hretry : s.retry_count < s.max_retries →
      (critic_node cfg env s).retry_count = s.retry_count + 1 ∧
      (critic_node cfg env s).failure_reason = none ∧
      route_after_critic (critic_node cfg env s) = .executor := by
    intro hlt
    have hstep : critic_decide (critic_assess cfg env s) =
        ({ critic_assess cfg env s with
            retry_count := (critic_assess cfg env s).retry_count + 1
          }).addLog "Critic vetoed; retrying executor" := by
      simp only [critic_decide]
      rw [if_pos hA, if_pos (by rw [ha.2.1, ha.2.2.1]; exact hlt)]
    have hfail : (critic_node cfg env s).failure_reason = none := by
      rw [heq]
      show (critic_decide (critic_assess cfg env s)).failure_reason = none
      rw [hstep]
      show (critic_assess cfg env s).failure_reason = none
      rw [ha.1, hnf]
    refine ⟨?_, hfail, ?_⟩
    · rw [heq]
      show (critic_decide (critic_assess cfg env s)).retry_count = s.retry_count + 1
      rw [hstep]
      show (critic_assess cfg env s).retry_count + 1 = s.retry_count + 1
      rw [ha.2.1]
    · unfold route_after_critic
      rw [if_neg (by rw [hpause]; exact Bool.false_ne_true)]
      rw [if_neg (by rw [hfail]; simp [truthyStr])]
      rw [if_pos (by rw [hrep]; rfl)]
  have hexhaust : s.max_retries ≤ s.retry_count →
      (critic_node cfg env s).failure_reason
          = some "Max retries exceeded after critic veto." ∧
      route_after_critic (critic_node cfg env s) = .fail ∧
      ∀ fuel, runFrom cfg env (fuel + 1) .critic s =
        some { state := critic_node cfg env s, terminal := .failed,
               trace := [.critic] } := by
    intro hge
    have hstep : critic_decide (critic_assess cfg env s) =
        { critic_assess cfg env s with
            failure_reason := some "Max retries exceeded after critic veto." } := by
      simp only [critic_decide]
      rw [if_pos hA, if_neg (by rw [ha.2.1, ha.2.2.1]; omega)]
    have hfail : (critic_node cfg env s).failure_reason
        = some "Max retries exceeded after critic veto." := by
      rw [heq]
      show (critic_decide (critic_assess cfg env s)).failure_reason = _
      rw [hstep]
    have hroute : route_after_critic (critic_node cfg env s) = .fail := by
      unfold route_after_critic
      rw [if_neg (by rw [hpause]; exact Bool.false_ne_true)]
      rw [if_pos (by rw [hfail]; rfl)]
    refine ⟨hfail, hroute, ?_⟩
    intro fuel
    simp only [runFrom]
    rw [hroute]
  refine ⟨hretry, hexhaust, ?_, ?_⟩
  · intro fuel n r hle hr
    have acc := runFrom_retry_accounting cfg env fuel n s r hr
    have hup := acc.2.2.1
    have hcount := acc.2.2.2
    have hbn : entryBonus n ≤ 1 := by rcases n <;> decide
    have hmax : max s.retry_count s.max_retries = s.max_retries := max_eq_right hle
    omega
  · intro h0 fuel
    exact ⟨(hexhaust (by omega)).2.2 fuel, (hexhaust (by omega)).1⟩

/-- With no "predictions" key in the executor artifacts, the critic's
baseline is [], the consistency report is exactly
{prediction_consistency: 0.0}, and — for any positive threshold — the
PC check forces veto = true in the assessed report. -/
theorem critic_assess_veto_forced (cfg : EngineConfig) (env : Env) (s : GraphState)
    (hth : 0 < cfg.pc_threshold)
    (hpred : s.executor_artifacts.predictions = none) :
    (critic_assess cfg env s).critic_report.veto = some true ∧
    (critic_assess cfg env s).critic_report.counterfactual
      = some { prediction_consistency := 0 } := by
  simp only [critic_assess]
  rw [hpred]
  rw [if_pos (show (build_consistency_report ((none : Option (List ℚ)).getD [])
      ((generate_counterfactuals env.rng {}).map
        (fun _ => ([] : List ℚ)))).prediction_consistency < cfg.pc_threshold from hth)]
  exact ⟨rfl, rfl⟩

/-- Node-level version of the forced veto, at a passing prologue. -/
theorem critic_node_veto_forced (cfg : EngineConfig) (env : Env) (s : GraphState)
    (hpr : s.pause_requested = false) (hpf : env.pauseFlag = false)
    (hnf : s.failure_reason = none) (hth : 0 < cfg.pc_threshold)
    (hpred : s.executor_artifacts.predictions = none) :
    (critic_node cfg env s).critic_report.veto = some true ∧
    (critic_node cfg env s).critic_report.counterfactual
      = some { prediction_consistency := 0 } := by
  have heq : critic_node cfg env s
      = (critic_decide (critic_assess cfg env s)).addLog "Critic issued report" :=
    guarded_pass env (critic_body cfg env) s hpr hpf hnf
  have hrep : (critic_node cfg env s).critic_report
      = (critic_assess cfg env s).critic_report := by
    rw [heq]
    exact (critic_decide_fields _).1
  rw [hrep]
  exact critic_assess_veto_forced cfg env s hth hpred

/-- C1 witness: the retry-loop theorem applied to the engine's initial state
in a quiet environment (where the stubbed counterfactual check makes the
critic veto). -/
theorem critic_retry_loop_bounded_check :
    (critic_node {} quietEnv (initial_state {} "H")).retry_count = 1 ∧
    route_after_critic (critic_node {} quietEnv (initial_state {} "H"))
      = CriticRoute.executor := by
  have hveto : (critic_node {} quietEnv
      (initial_state {} "H")).critic_report.veto.getD false = true := by
    rw [(critic_node_veto_forced {} quietEnv (initial_state {} "H")
      rfl rfl rfl (by norm_num) rfl).1]
    rfl
  have h := critic_retry_loop_bounded {} quietEnv (initial_state {} "H")
    rfl rfl rfl hveto
  have ha := h.1 (by decide)
  exact ⟨ha.1, ha.2.2⟩

/-- One critic step under a veto (pause flag absent, no prior failure):
retry-or-fail, with the route matching. -/
theorem critic_step_veto (cfg : EngineConfig) (env : Env) (s : GraphState)
    (hpr : s.pause_requested = false) (hpf : env.pauseFlag = false)
    (hnf : s.failure_reason = none)
    (hv : (critic_assess cfg env s).critic_report.veto = some true) :
    (s.retry_count < s.max_retries →
      (critic_node cfg env s).retry_count = s.retry_count + 1 ∧
      (critic_node cfg env s).failure_reason = none ∧
      (critic_node cfg env s).pause_requested = false ∧
      (critic_node cfg env s).max_retries = s.max_retries ∧
      route_after_critic (critic_node cfg env s) = .executor) ∧
    (s.max_retries ≤ s.retry_count →
      (critic_node cfg env s).failure_reason
          = some "Max retries exceeded after critic veto." ∧
      route_after_critic (critic_node cfg env s) = .fail ∧
      ∀ fuel, runFrom cfg env (fuel + 1) .critic s =
        some { state := critic_node cfg env s, terminal := .failed,
               trace := [.critic] }) := by
  have heq : critic_node cfg env s
      = (critic_decide (critic_assess cfg env s)).addLog "Critic issued report" :=
    guarded_pass env (critic_body cfg env) s hpr hpf hnf
  have ha := critic_assess_fields cfg env s
  have hA : (critic_assess cfg env s).critic_report.veto.getD false = true := by
    rw [hv]
    rfl
  have hpause : (critic_node cfg env s).pause_requested = false := by
    rw [heq]
    show (critic_decide (critic_assess cfg env s)).pause_requested = false
    rw [(critic_decide_fields _).2.2.1, ha.2.2.2.1, hpr]
  have hmaxeq : (critic_node cfg env s).max_retries = s.max_retries := by
    rw [heq]
    show (critic_decide (critic_assess cfg env s)).max_retries = s.max_retries
    rw [(critic_decide_fields _).2.1, ha.2.2.1]
  constructor
  · intro hlt
    have hstep : critic_decide (critic_assess cfg env s) =
        ({ critic_assess cfg env s with
            retry_count := (critic_assess cfg env s).retry_count + 1
          }).addLog "Critic vetoed; retrying executor" := by
      simp only [critic_decide]
      rw [if_pos hA, if_pos (by rw [ha.2.1, ha.2.2.1]; exact hlt)]
    have hfail : (critic_node cfg env s).failure_reason = none := by
      rw [heq]
      show (critic_decide (critic_assess cfg env s)).failure_reason = none
      rw [hstep]
      show (critic_assess cfg env s).failure_reason = none
      rw [ha.1, hnf]
    have hrep : (critic_node cfg env s).critic_report.veto = some true := by
      rw [heq]
      show (critic_decide (critic_assess cfg env s)).critic_report.veto = some true
      rw [(critic_decide_fields _).1, hv]
    refine ⟨?_, hfail, hpause, hmaxeq, ?_⟩
    · rw [heq]
      show (critic_decide (critic_assess cfg env s)).retry_count = s.retry_count + 1
      rw [hstep]
      show (critic_assess cfg env s).retry_count + 1 = s.retry_count + 1
      rw [ha.2.1]
    · unfold route_after_critic
      rw [if_neg (by rw [hpause]; exact Bool.false_ne_true)]
      rw [if_neg (by rw [hfail]; simp [truthyStr])]
      rw [if_pos (by rw [hrep]; rfl)]
  · intro hge
    have hstep : critic_decide (critic_assess cfg env s) =
        { critic_assess cfg env s with
            failure_reason := some "Max retries exceeded after critic veto." } := by
      simp only [critic_decide]
      rw [if_pos hA, if_neg (by rw [ha.2.1, ha.2.2.1]; omega)]
    have hfail : (critic_node cfg env s).failure_reason
        = some "Max retries exceeded after critic veto." := by
      rw [heq]
      show (critic_decide (critic_assess cfg env s)).failure_reason = _
      rw [hstep]
    have hroute : route_after_critic (critic_node cfg env s) = .fail := by
      unfold route_after_critic
      rw [if_neg (by rw [hpause]; exact Bool.false_ne_true)]
      rw [if_pos (by rw [hfail]; rfl)]
    refine ⟨hfail, hroute, ?_⟩
    intro fuel
    simp only [runFrom]
    rw [hroute]

/-- From the executor with the pause flag absent: since the executor never
writes predictions, each critic pass vetoes, so the run burns the remaining
retry budget k and fails with the exact max-retries message, visiting only
executor and critic nodes. -/
theorem run_exhausts_retries (cfg : EngineConfig) (env : Env)
    (hth : 0 < cfg.pc_threshold) (hpf : env.pauseFlag = false) :
    ∀ k fuel s, s.pause_requested = false → s.failure_reason = none →
      s.max_retries = s.retry_count + k → 2 * k + 2 ≤ fuel →
      ∃ r, runFrom cfg env fuel .executor s = some r ∧
        r.terminal = .failed ∧
        r.state.failure_reason = some "Max retries exceeded after critic veto." ∧
        ∀ n ∈ r.trace, n = Node.executor ∨ n = Node.critic := by
  intro k
  induction k with
  | zero =>
      intro fuel s hpr hnf hmax hfuel
      obtain ⟨f, rfl⟩ : ∃ f, fuel = f + 1 + 1 := ⟨fuel - 2, by omega⟩
      have he1 : executor_node env s = executor_body env s :=
        guarded_pass env (executor_body env) s hpr hpf hnf
      have hf1 := executor_body_fields env s
      have hs1pr : (executor_node env s).pause_requested = false := by
        rw [he1, hf1.2.2.2.1, hpr]
      have hs1nf : (executor_node env s).failure_reason = none := by
        rw [he1, hf1.1, hnf]
      have hs1pred : (executor_node env s).executor_artifacts.predictions = none := by
        rw [he1, hf1.2.2.2.2.2]
        rfl
      have hv := critic_assess_veto_forced cfg env (executor_node env s) hth hs1pred
      have hstep := (critic_step_veto cfg env (executor_node env s)
        hs1pr hpf hs1nf hv.1).2 (by rw [he1, hf1.2.1, hf1.2.2.1]; omega)
      refine ⟨{ state := critic_node cfg env (executor_node env s),
                terminal := .failed, trace := [.executor, .critic] }, ?_, rfl,
              hstep.1, ?_⟩
      · show withTrace .executor (runFrom cfg env (f + 1) .critic (executor_node env s))
          = _
        rw [hstep.2.2 f]
        rfl
      · intro n hn
        rcases List.mem_cons.mp hn with rfl | hn
        · exact Or.inl rfl
        rcases List.mem_cons.mp hn with rfl | hn
        · exact Or.inr rfl
        simp at hn
  | succ k ih =>
      intro fuel s hpr hnf hmax hfuel
      obtain ⟨f, rfl⟩ : ∃ f, fuel = f + 1 + 1 := ⟨fuel - 2, by omega⟩
      have he1 : executor_node env s = executor_body env s :=
        guarded_pass env (executor_body env) s hpr hpf hnf
      have hf1 := executor_body_fields env s
      have hs1pr : (executor_node env s).pause_requested = false := by
        rw [he1, hf1.2.2.2.1, hpr]
      have hs1nf : (executor_node env s).failure_reason = none := by
        rw [he1, hf1.1, hnf]
      have hs1pred : (executor_node env s).executor_artifacts.predictions = none := by
        rw [he1, hf1.2.2.2.2.2]
        rfl
      have hv := critic_assess_veto_forced cfg env (executor_node env s) hth hs1pred
      have hretry1 : (executor_node env s).retry_count = s.retry_count := by
        rw [he1, hf1.2.1]
      have hmax1 : (executor_node env s).max_retries = s.max_retries := by
        rw [he1, hf1.2.2.1]
      have hstep := (critic_step_veto cfg env (executor_node env s)
        hs1pr hpf hs1nf hv.1).1 (by rw [hretry1, hmax1]; omega)
      have hIH := ih f (critic_node cfg env (executor_node env s))
        hstep.2.2.1 hstep.2.1
        (by rw [hstep.2.2.2.1, hmax1, hstep.1, hretry1]; omega)
        (by omega)
      obtain ⟨r2, hr2, ht2, hfail2, hmem2⟩ := hIH
      refine ⟨{ r2 with trace := .executor :: .critic :: r2.trace }, ?_, ht2, hfail2, ?_⟩
      · show withTrace .executor (runFrom cfg env (f + 1) .critic (executor_node env s))
          = _
        have hcrit : runFrom cfg env (f + 1) .critic (executor_node env s)
            = withTrace .critic (runFrom cfg env f .executor
                (critic_node cfg env (executor_node env s))) := by
          simp only [runFrom]
          rw [hstep.2.2.2.2]
        rw [hcrit, hr2]
        rfl
      · intro n hn
        rcases List.mem_cons.mp hn with rfl | hn
        · exact Or.inl rfl
        rcases List.mem_cons.mp hn with rfl | hn
        · exact Or.inr rfl
        exact hmem2 n hn

/-- C3: the executor never writes a "predictions" key, so the critic's
baseline is empty and the stubbed counterfactual predictions give
prediction_consistency = 0.0, below any positive threshold (0.7 by default),
forcing veto = true on every critic invocation; consequently every run with
the pause flag absent (so the critic is actually reached) exhausts its
retries, terminates failed with exactly "Max retries exceeded after critic
veto." without ever visiting the risk or approval nodes, and the entry point
raises that reason — the done and approval-paused terminal states are
unreachable. -/
theorem critic_always_vetoes_run_fails (cfg : EngineConfig) (env : Env) (h : String)
    (hth : 0 < cfg.pc_threshold) (hpf : env.pauseFlag = false) :
    (∀ p, (ExecutorAgent.execute env p).predictions = none) ∧
    (∀ s : GraphState, s.pause_requested = false → s.failure_reason = none →
        s.executor_artifacts.predictions = none →
        (critic_node cfg env s).critic_report.counterfactual
          = some { prediction_consistency := 0 } ∧
        (critic_node cfg env s).critic_report.veto = some true) ∧
    (∀ fuel, 2 * cfg.max_retries + 3 ≤ fuel →
      ∃ r, runFrom cfg env fuel .planner (initial_state cfg h) = some r ∧
        r.terminal = .failed ∧
        r.state.failure_reason = some "Max retries exceeded after critic veto." ∧
        Node.risk ∉ r.trace ∧ Node.approval ∉ r.trace) ∧
    (∀ fuel, 2 * cfg.max_retries + 3 ≤ fuel →
      run_graph cfg env fuel h = some (.error "Max retries exceeded after critic veto.")) := by
  have hrun : ∀ fuel, 2 * cfg.max_retries + 3 ≤ fuel →
      ∃ r, runFrom cfg env fuel .planner (initial_state cfg h) = some r ∧
        r.terminal = .failed ∧
        r.state.failure_reason = some "Max retries exceeded after critic veto." ∧
        Node.risk ∉ r.trace ∧ Node.approval ∉ r.trace := by
    intro fuel hfuel
    obtain ⟨f, rfl⟩ : ∃ f, fuel = f + 1 := ⟨fuel - 1, by omega⟩
    have hpl : planner_node env (initial_state cfg h)
        = planner_body (initial_state cfg h) :=
      guarded_pass env planner_body (initial_state cfg h) rfl hpf rfl
    have hflds := planner_body_fields (initial_state cfg h)
    have hloop := run_exhausts_retries cfg env hth hpf cfg.max_retries f
      (planner_node env (initial_state cfg h))
      (by rw [hpl, hflds.2.2.2.1]; rfl)
      (by rw [hpl, hflds.1]; rfl)
      (by rw [hpl, hflds.2.1, hflds.2.2.1]
          show cfg.max_retries = 0 + cfg.max_retries
          omega)
      (by omega)
    obtain ⟨r2, hr2, ht2, hfail2, hmem2⟩ := hloop
    refine ⟨{ r2 with trace := .planner :: r2.trace }, ?_, ht2, hfail2, ?_, ?_⟩
    · show withTrace .planner (runFrom cfg env f .executor
        (planner_node env (initial_state cfg h))) = _
      rw [hr2]
      rfl
    · intro hmem
      rcases List.mem_cons.mp hmem with hc | hc
      · cases hc
      · rcases hmem2 _ hc with hc2 | hc2 <;> cases hc2
    · intro hmem
      rcases List.mem_cons.mp hmem with hc | hc
      · cases hc
      · rcases hmem2 _ hc with hc2 | hc2 <;> cases hc2
  refine ⟨fun p => rfl, ?_, hrun, ?_⟩
  · intro s hpr hnf hpred
    have := critic_node_veto_forced cfg env s hpr hpf hnf hth hpred
    exact ⟨this.2, this.1⟩
  · intro fuel hfuel
    obtain ⟨r, hr, _, hfail, _, _⟩ := hrun fuel hfuel
    unfold run_graph
    rw [hr]
    simp [hfail, truthyStr]

/-- C3 witness: the theorem applied to the default configuration (threshold
0.7, two retries) in a quiet environment; with fuel 7 = 2·2 + 3 the whole run
fails with the max-retries message and the entry point raises it. -/
theorem critic_always_vetoes_run_fails_check :
    (ExecutorAgent.execute quietEnv []).predictions = none ∧
    run_graph {} quietEnv 7 "H"
      = some (Except.error "Max retries exceeded after critic veto.") := by
  have hc := critic_always_vetoes_run_fails {} quietEnv "H" (by norm_num) rfl
  exact ⟨hc.1 [], hc.2.2.2 7 (by norm_num)⟩

end HedgeFund
